import Mathlib

/-!
Verification of the cross-catalog identity-resolution engine of the
zero-mapper repository against its specification.

The engine's text processing, scoring, selection and season-resolution
routines are shallowly embedded below.  Strings are modelled as `List Char`
(JavaScript strings are sequences of code units; all the code under test
manipulates them character by character through regular expressions whose
character classes are ASCII), numbers produced by the scoring arithmetic are
modelled as `ℚ` (the JavaScript code performs IEEE double arithmetic on
small dyadic-and-decimal constants; the claims under test concern exact
constants, orderings and branch structure, which `ℚ` captures), and network
collaborators (catalog search, episode listing) are modelled as explicit
function parameters, following §6 of the specification which treats them as
injected pure async functions.  Process-wide read-through caches on
collaborator results (`animeInfoCache`, `searchCache`) are not modelled;
the word-variation memoisation cache, which one claim is about, is modelled
explicitly as threaded state.
-/

set_option maxRecDepth 40000

namespace ZeroMapper

/-! ## Character classes (ASCII semantics of the JavaScript regexes) -/

/-- JavaScript regex `\s` (the ASCII members: space, \t, \n, \v, \f, \r). -/
def isSpaceJS (c : Char) : Bool :=
  c.toNat = 32 || c.toNat = 9 || c.toNat = 10 || c.toNat = 11 || c.toNat = 12 || c.toNat = 13

/-- JavaScript regex `\w`, i.e. `[A-Za-z0-9_]`. -/
def isWordCharJS (c : Char) : Bool :=
  (48 ≤ c.toNat && c.toNat ≤ 57) || (65 ≤ c.toNat && c.toNat ≤ 90) ||
  (97 ≤ c.toNat && c.toNat ≤ 122) || c.toNat = 95

/-- JavaScript regex `\d`, i.e. `[0-9]`. -/
def isDigitJS (c : Char) : Bool :=
  48 ≤ c.toNat && c.toNat ≤ 57

/-- `String.prototype.toLowerCase`, per character, on the ASCII range
(the titles handled by the engine are filtered to non-CJK text upstream). -/
def toLowerJS (c : Char) : Char :=
  if 65 ≤ c.toNat && c.toNat ≤ 90 then Char.ofNat (c.toNat + 32) else c

/-- `toLowerCase` on a whole string. -/
def lowerStr (s : List Char) : List Char := s.map toLowerJS

/-! ## The title normalizer

`normalizeText` from `src/providers/hianime.ts` (lines 74-83) and, with the
`removeYear` flag, from the AnimeSama mapper (lines 159-175): lower-case,
`&`→"and", `½`→"0.5", `×`→"x", drop apostrophes, drop `[^\w\s]`, collapse
`\s+` to a single space, trim; with `removeYear`, additionally delete
`\b(19|20)\d{2}\b` matches and trim again. -/

/-- The per-character effect of the chained `replace` calls
`&`→`"and"`, `½`→`"0.5"`, `×`→`"x"`, `/[']/`→`""` (none of the produced
characters is itself a pattern character of a later stage, so the chain of
global single-character replacements acts as one pass). -/
def expandChar (c : Char) : List Char :=
  if c.toNat = 38 then ['a', 'n', 'd']
  else if c.toNat = 189 then ['0', '.', '5']
  else if c.toNat = 215 then ['x']
  else if c.toNat = 39 then []
  else [c]

/-- `replace(/\s+/g, ' ')`: each maximal whitespace run becomes one space.
The flag records whether the previously read character was part of a
whitespace run that has already emitted its space. -/
def collapseGo : Bool → List Char → List Char
  | _, [] => []
  | inSpace, c :: rest =>
    if isSpaceJS c then
      if inSpace then collapseGo true rest
      else ' ' :: collapseGo true rest
    else c :: collapseGo false rest

def collapseSpaces (l : List Char) : List Char := collapseGo false l

/-- `String.prototype.trim`, left half. -/
def trimLeftJS (l : List Char) : List Char := l.dropWhile isSpaceJS

/-- `String.prototype.trim`. -/
def trimJS (l : List Char) : List Char :=
  ((trimLeftJS l).reverse.dropWhile isSpaceJS).reverse

/-- The shared normalization pipeline (no year removal). -/
def normalizeBase (text : List Char) : List Char :=
  trimJS (collapseSpaces
    (((text.map toLowerJS).flatMap expandChar).filter
      (fun c => isWordCharJS c || isSpaceJS c)))

/-- Global replacement of `\b(19|20)\d{2}\b` by the empty string.  `prev` is
the character preceding the current scan position (`none` at the start),
used for the leading word-boundary test; after a match the scan resumes
after the match, as `lastIndex` does. -/
def removeYearsGo : Option Char → List Char → List Char
  | _, [] => []
  | prev, c1 :: c2 :: c3 :: c4 :: rest =>
    if (((c1 = '1' && c2 = '9') || (c1 = '2' && c2 = '0')) && isDigitJS c3 && isDigitJS c4)
        && (match prev with | none => true | some p => !isWordCharJS p)
        && (match rest with | [] => true | d :: _ => !isWordCharJS d) then
      removeYearsGo (some c4) rest
    else c1 :: removeYearsGo (some c1) (c2 :: c3 :: c4 :: rest)
  | _, c :: rest => c :: removeYearsGo (some c) rest

def removeYears (l : List Char) : List Char := removeYearsGo none l

/-- `normalizeText(text, removeYear = false)` (AnimeSama mapper lines
159-175; the hianime variant is the `removeYear = false` case). -/
def normalizeText (text : List Char) (removeYear : Bool := false) : List Char :=
  let normalized := normalizeBase text
  if removeYear then trimJS (removeYears normalized) else normalized

/-! ### Invariants of normalized text, used for the idempotence analysis -/

/-- A character that the core pipeline can let through: a `\w` character
that is not an upper-case letter, or the plain space. -/
def goodChar (c : Char) : Bool :=
  (isWordCharJS c && !(65 ≤ c.toNat && c.toNat ≤ 90)) || c.toNat = 32

/-- Two adjacent characters are never both spaces. -/
def noSpacePair (a b : Char) : Prop := ¬(a = ' ' ∧ b = ' ')

/-- Shape of any output of the core pipeline: only good characters, no two
adjacent spaces, and no space at either end. -/
def wellFormedNorm (l : List Char) : Prop :=
  (∀ c ∈ l, goodChar c = true) ∧ List.Chain' noSpacePair l ∧
  (∀ c, l.head? = some c → c ≠ ' ') ∧ (∀ c, l.getLast? = some c → c ≠ ' ')

/-! ## Word-variation expander

`TITLE_REPLACEMENTS`, `SEQUEL_PATTERNS` and `getWordVariations` from
`src/providers/hianime.ts` (lines 14-44 and 141-176).  JavaScript `Set`
and `Map` preserve insertion order; they are modelled as duplicate-free
insertion-ordered lists and association lists. -/

def TITLE_REPLACEMENTS : List (String × List String) := [
  (r"season", [r"s", r"sz"]),
  (r"s", [r"season", r"sz"]),
  (r"sz", [r"season", r"s"]),
  (r"two", [r"2", r"ii"]),
  (r"three", [r"3", r"iii"]),
  (r"four", [r"4", r"iv"]),
  (r"five", [r"5", r"v"]),
  (r"six", [r"6", r"vi"]),
  (r"part", [r"pt", r"p"]),
  (r"episode", [r"ep"]),
  (r"chapters", [r"ch"]),
  (r"chapter", [r"ch"]),
  (r"first", [r"1", r"i"]),
  (r"second", [r"2", r"ii"]),
  (r"third", [r"3", r"iii"]),
  (r"fourth", [r"4", r"iv"]),
  (r"fifth", [r"5", r"v"]),
  (r"sixth", [r"6", r"vi"])]

def SEQUEL_PATTERNS : List (String × List String) := [
  (r"2nd season", [r"second season", r"s2", r"season 2", r"season two", r"ii"]),
  (r"3rd season", [r"third season", r"s3", r"season 3", r"season three", r"iii"]),
  (r"4th season", [r"fourth season", r"s4", r"season 4", r"season four", r"iv"]),
  (r"part 2", [r"part two", r"p2", r"pt 2", r"cour 2"]),
  (r"part 3", [r"part three", r"p3", r"pt 3", r"cour 3"]),
  (r"final season", [r"last season", r"end", r"finale", r"final"]),
  (r"2nd cour", [r"second cour", r"cour 2"]),
  (r"3rd cour", [r"third cour", r"cour 3"])]

def titleReplacements : List (List Char × List (List Char)) :=
  TITLE_REPLACEMENTS.map (fun p => (p.1.data, p.2.map String.data))

def sequelPatterns : List (List Char × List (List Char)) :=
  SEQUEL_PATTERNS.map (fun p => (p.1.data, p.2.map String.data))

/-- `Set.prototype.add`: append if not already present (insertion order). -/
def setAdd (l : List (List Char)) (x : List Char) : List (List Char) :=
  if x ∈ l then l else l ++ [x]

def setAddAll (l : List (List Char)) (xs : List (List Char)) : List (List Char) :=
  xs.foldl setAdd l

/-- `word.replace(/\d+/g, '').trim()`. -/
def stripDigits (w : List Char) : List Char :=
  trimJS (w.filter (fun c => !isDigitJS c))

/-- The pure computation inside `getWordVariations` (hianime.ts lines
147-173), without the cache. -/
def computeVariations (word : List Char) : List (List Char) :=
  let normalized := normalizeText word
  let variations := setAdd [word] normalized
  let withoutNumbers := stripDigits word
  let variations :=
    if withoutNumbers ≠ word then setAdd variations withoutNumbers else variations
  let variations := titleReplacements.foldl (fun acc kv =>
    if normalized = kv.1 then setAddAll acc kv.2
    else if kv.2.contains normalized then setAddAll (setAdd acc kv.1) kv.2
    else acc) variations
  let variations := sequelPatterns.foldl (fun acc kv =>
    let normalizedKey := normalizeText kv.1
    if normalized = normalizedKey then setAddAll acc kv.2
    else if kv.2.contains normalized then setAddAll (setAdd acc normalizedKey) kv.2
    else acc) variations
  variations

/-- The module-level `wordVariationsCache` map, threaded explicitly. -/
abbrev WVCache := List (List Char × List (List Char))

def lookupCache : WVCache → List Char → Option (List (List Char))
  | [], _ => none
  | (k, v) :: rest, key => if k = key then some v else lookupCache rest key

/-- `getWordVariations` (hianime.ts lines 141-176): the cache key is the
lower-cased word, a hit returns the cached list unchanged, a miss computes
the variations of the original word and stores them under the key. -/
def getWordVariations (cache : WVCache) (word : List Char) :
    List (List Char) × WVCache :=
  let cacheKey := lowerStr word
  match lookupCache cache cacheKey with
  | some v => (v, cache)
  | none =>
    let result := computeVariations word
    (result, cache ++ [(cacheKey, result)])

/-- Soundness invariant of cache states reachable through lower-case words
only (every engine call site passes words of already-normalized titles):
each entry's key is lower-case-fixed and its value is the pure
recomputation at that key. -/
def wvCacheGood (c : WVCache) : Prop :=
  ∀ kv ∈ c, kv.1 = lowerStr kv.1 ∧ kv.2 = computeVariations kv.1

/-! ## Candidate scorer

`levenshteinDistance` (hianime.ts lines 119-139), the external
`string-similarity-js` bigram coefficient used at line 299 (modelled from
its published algorithm: multiset of length-2 windows, Dice-style
normalization), and `calculateTitleScore` (hianime.ts lines 247-302). -/

/-- One row update of the Wagner–Fischer matrix built by
`levenshteinDistance`: given row `j-1` (as `prev`, starting at column
`i-1`), the character `b[j-1]`, and the already computed entry `new[i-1]`,
produce entries `new[i..]`.  `min(left+1, up+1, diag+indicator)` follows
the source's `Math.min` argument order. -/
def levRowAux (bc : Char) : List Char → Nat → List Nat → List Nat
  | [], _, _ => []
  | _, _, [] => []
  | ac :: arest, newPrev, pPrev :: pRest =>
      let pUp := pRest.headD 0
      let ind := if ac = bc then 0 else 1
      let ni := min (min (newPrev + 1) (pUp + 1)) (pPrev + ind)
      ni :: levRowAux bc arest ni pRest

/-- `levenshteinDistance(a, b)`: matrix row 0 is `0..a.length`, each later
row `j` starts with `j` and is filled by `levRowAux`; the result is the
bottom-right entry. -/
def levenshteinDistance (a b : List Char) : Nat :=
  let row0 := List.range (a.length + 1)
  let finalRow := b.foldl
    (fun prev bc => (prev.headD 0 + 1) :: levRowAux bc a (prev.headD 0 + 1) prev) row0
  finalRow.getLastD 0

/-- All length-2 windows of a string (the `substr(i, 2)` loop of
`string-similarity-js`). -/
def bigrams : List Char → List (List Char)
  | a :: b :: rest => [a, b] :: bigrams (b :: rest)
  | _ => []

/-- The second loop of `string-similarity-js`: each bigram of the second
string consumes at most one equal bigram of the first (multiset
intersection size). -/
def bigramMatches : List (List Char) → List (List Char) → Nat
  | _, [] => 0
  | pool, t :: rest =>
    if t ∈ pool then 1 + bigramMatches (pool.erase t) rest
    else bigramMatches pool rest

/-- `stringSimilarity(str1, str2)` of the `string-similarity-js` package
(substring length 2, case-insensitive default):
`2·matches / (len1 + len2 − 2)`, and `0` when either string is shorter
than a bigram. -/
def stringSimilarityJS (str1 str2 : List Char) : ℚ :=
  let s1 := lowerStr str1
  let s2 := lowerStr str2
  if s1.length < 2 ∨ s2.length < 2 then 0
  else mkRat (2 * bigramMatches (bigrams s1) (bigrams s2)) (s1.length + s2.length - 2)

/-- `String.prototype.split(sep)` for a one-character separator: empty
segments are kept, and splitting the empty string yields `[""]`. -/
def splitOnChar (sep : Char) : List Char → List (List Char)
  | [] => [[]]
  | c :: rest =>
    match splitOnChar sep rest with
    | [] => [[]]
    | w :: ws => if c = sep then [] :: w :: ws else (c :: w) :: ws

/-- `str1.includes(str2)`: contiguous substring containment. -/
def containsSub : List Char → List Char → Bool
  | [], needle => needle.isEmpty
  | hay@(_ :: rest), needle => needle.isPrefixOf hay || containsSub rest needle

/-- `matchLength / maxLength` of the substring-containment branch. -/
def fracLen (sv tv : List Char) : ℚ :=
  mkRat (Nat.cast (min sv.length tv.length)) (max sv.length tv.length)

/-- Score of one variation pair inside the word loop of
`calculateTitleScore`: an exact variation match is 1, substring
containment either way scores `min(len)/max(len)`, anything else 0. -/
def pairScore (sv tv : List Char) : ℚ :=
  if sv = tv then 1
  else if containsSub sv tv || containsSub tv sv then fracLen sv tv
  else 0

/-- Innermost loop (`for titleVar of titleVariations[j]`): accumulate the
running best, breaking out with 1 on an exact variation match. -/
def scanTitleVars (sv : List Char) : List (List Char) → ℚ → ℚ
  | [], b => b
  | tv :: rest, b =>
    if sv = tv then 1
    else if containsSub sv tv || containsSub tv sv then
      scanTitleVars sv rest (max b (fracLen sv tv))
    else scanTitleVars sv rest b

/-- Middle loop (`for searchVar of searchVariations[i]`), breaking once the
best reaches 1. -/
def scanSearchVars (tvj : List (List Char)) : List (List Char) → ℚ → ℚ
  | [], b => b
  | sv :: rest, b =>
    let b' := scanTitleVars sv tvj b
    if b' = 1 then b' else scanSearchVars tvj rest b'

/-- Outer loop (`for j over titleVariations`), breaking once the best
reaches 1: the `bestWordMatch` of one search word. -/
def scanTitleWords (svs : List (List Char)) : List (List (List Char)) → ℚ → ℚ
  | [], b => b
  | tvj :: rest, b =>
    let b' := scanSearchVars tvj svs b
    if b' = 1 then b' else scanTitleWords svs rest b'

/-- The `matches` / `partialMatches` accumulation of `calculateTitleScore`
(lines 266-296) over the per-word best values. -/
def wordAccum (bests : List ℚ) : ℚ × ℚ :=
  bests.foldl (fun acc b =>
    if b = 1 then (acc.1 + 1, acc.2)
    else if b > 0 then (acc.1, acc.2 + b)
    else acc) (0, 0)

/-- `calculateTitleScore(searchTitle, hianimeTitle, ...)` (hianime.ts lines
247-302).  The two year-list parameters of the source are unused there and
omitted.  Word variations are the pure expansion (the cache is
observationally equal on the lower-case words produced by
`normalizeText`). -/
def calculateTitleScore (searchTitle hianimeTitle : List Char) : ℚ :=
  let normalizedSearch := normalizeText searchTitle
  let normalizedTitle := normalizeText hianimeTitle
  if normalizedSearch = normalizedTitle then 1
  else if levenshteinDistance normalizedSearch normalizedTitle ≤ 2 ∧
      normalizedSearch.length > 5 then mkRat 95 100
  else
    let searchWords := splitOnChar ' ' normalizedSearch
    let titleWords := splitOnChar ' ' normalizedTitle
    let searchVariations := searchWords.map computeVariations
    let titleVariations := titleWords.map computeVariations
    let bests := searchVariations.map (fun svs => scanTitleWords svs titleVariations 0)
    let acc := wordAccum bests
    let wordMatchScore := (acc.1 + acc.2 * mkRat 1 2) / mkRat searchWords.length 1
    let similarity := stringSimilarityJS normalizedSearch normalizedTitle
    wordMatchScore * mkRat 7 10 + similarity * mkRat 3 10

/-- The word-match score as §4.3 of the specification words it: each
source word is best-matched against the candidate words by comparing
variation sets (exact variation match 1.0, substring containment
min/max), `matches` counts full matches, `partialMatches` sums the
fractional ones, and the score is
`(matches + 0.5·partialMatches) / sourceWordCount`. -/
def wordMatchScoreSpec (normalizedSearch normalizedTitle : List Char) : ℚ :=
  let searchWords := splitOnChar ' ' normalizedSearch
  let titleWords := splitOnChar ' ' normalizedTitle
  let bests := searchWords.map (fun w =>
    (titleWords.map (fun w' =>
      ((computeVariations w).map (fun sv =>
        ((computeVariations w').map (pairScore sv)).foldr max 0)).foldr max 0)).foldr max 0)
  let acc := wordAccum bests
  (acc.1 + mkRat 1 2 * acc.2) / mkRat searchWords.length 1

/-! ## The hianime match selector

`searchAnime`, `searchAnimeAlternative` and the final selection logic of
`src/providers/hianime.ts` (lines 85-117 for the extractors, 304-642 for
the selector).  The catalog query is the collaborator `CatalogSearch` of
§6, modelled as a function from the search string to the structured
candidate records the DOM extraction produces (title and `data-jname`
strings, href identifier, format text, episode-count and parsed
duration). -/

def takeDigits (l : List Char) : List Char := l.takeWhile isDigitJS

def digitsToNat (ds : List Char) : Nat :=
  ds.foldl (fun acc c => acc * 10 + (c.toNat - 48)) 0

/-- First match of `/\((\d{4})\)/`: a parenthesis, exactly four digits, a
closing parenthesis; scanning restarts at the next character on failure. -/
def extractParenYear : List Char → Option (List Char)
  | [] => none
  | c :: rest =>
    if c = '(' then
      match rest with
      | d1 :: d2 :: d3 :: d4 :: cp :: _ =>
        if isDigitJS d1 && isDigitJS d2 && isDigitJS d3 && isDigitJS d4 && cp = ')' then
          some [d1, d2, d3, d4]
        else extractParenYear rest
      | _ => extractParenYear rest
    else extractParenYear rest

/-- `extractYears(title, jname)` (hianime.ts lines 85-95): the first
parenthesised year of each input, deduplicated in insertion order. -/
def extractYears (title : List Char) (jname : Option (List Char)) : List (List Char) :=
  let ys : List (List Char) := []
  let ys := match extractParenYear title with | some y => setAdd ys y | none => ys
  let ys := match jname with
    | some j => (match extractParenYear j with | some y => setAdd ys y | none => ys)
    | none => ys
  ys

/-- Match of `kw\s*(\d+)` (case-insensitive) at the current position. -/
def matchKwNumAt (kw : List Char) (l : List Char) : Option Nat :=
  if lowerStr (l.take kw.length) = kw then
    let after := (l.drop kw.length).dropWhile isSpaceJS
    let ds := takeDigits after
    if ds.isEmpty then none else some (digitsToNat ds)
  else none

/-- Match of `\sLETTER(\d+)(?:\s|$)` (case-insensitive) at the current
position. -/
def matchSpLetterAt (letter : Char) : List Char → Option Nat
  | c :: c2 :: rest2 =>
    if isSpaceJS c ∧ toLowerJS c2 = letter then
      let ds := takeDigits rest2
      if ds.isEmpty then none
      else
        match rest2.drop ds.length with
        | [] => some (digitsToNat ds)
        | d :: _ => if isSpaceJS d then some (digitsToNat ds) else none
    else none
  | _ => none

/-- Leftmost match of a positional matcher. -/
def scanPat (f : List Char → Option Nat) : List Char → Option Nat
  | [] => none
  | l@(_ :: rest) =>
    match f l with
    | some n => some n
    | none => scanPat f rest

/-- `extractSeasonNumber` (hianime.ts lines 97-111): the five patterns in
order, first one matching anywhere wins. -/
def extractSeasonNumber (title : List Char) : Option Nat :=
  (scanPat (matchKwNumAt ((r"season").data)) title).orElse fun _ =>
  (scanPat (matchSpLetterAt 's') title).orElse fun _ =>
  (scanPat (matchKwNumAt ((r"part").data)) title).orElse fun _ =>
  (scanPat (matchKwNumAt ((r"cour").data)) title).orElse fun _ =>
  scanPat (matchSpLetterAt 'p') title

/-- Truthiness of an optional number in a JavaScript condition: neither
`null` nor `0`. -/
def truthyNat (o : Option Nat) : Bool := o.getD 0 != 0

/-- `animeInfo.episodes > k` under JavaScript comparison (`null > k` is
false). -/
def epGT (o : Option Nat) (k : Nat) : Bool :=
  match o with
  | some e => e > k
  | none => false

inductive Method
  | none | title_match | exact_title_match | exact_match | year_match
  | season_match | format_priority | highest_score | alternative | error
deriving DecidableEq, Repr

/-- One candidate as extracted from a search-result item (the `.flw-item`
fields read in hianime.ts lines 350-385): the collaborator boundary
supplies episode count and duration already parsed. -/
structure RawItem where
  title : List Char
  id : Option (List Char)
  jname : Option (List Char)
  formatText : List Char
  episodesCount : Nat
  duration : Option Nat
deriving DecidableEq, Repr

structure AnimeTitles where
  english : Option (List Char)
  romaji : Option (List Char)
deriving DecidableEq, Repr

/-- The fields of the AniList record consumed by `searchAnime`. -/
structure AnimeInfo where
  title : AnimeTitles
  synonyms : List (List Char)
  episodes : Option Nat
  format : Option (List Char)
  seasonYear : Option Nat
  duration : Option Nat
deriving DecidableEq, Repr

structure SeriesMatch where
  title : List Char
  id : List Char
  score : ℚ
  isMovie : Bool
  isTV : Bool
  isOVA : Bool
  isSpecial : Bool
  episodes : Nat
  duration : Option Nat
  jname : Option (List Char)
  years : List (List Char)
  seasonNum : Option Nat
deriving DecidableEq, Repr

structure BestMatch where
  score : ℚ
  id : Option (List Char)
  method : Method
deriving DecidableEq, Repr

def tvStr : List Char := (r"TV").data
def movieStr : List Char := (r"Movie").data
def ovaStr : List Char := (r"OVA").data
def specialStr : List Char := (r"Special").data
def fmtTV : List Char := (r"TV").data
def fmtMOVIE : List Char := (r"MOVIE").data
def fmtOVA : List Char := (r"OVA").data
def fmtSPECIAL : List Char := (r"SPECIAL").data

def significantWords : List (List Char) :=
  [(r"strike").data, (r"wars").data, (r"hunters").data, (r"slayer").data, (r"quest").data]

/-- `arr.filter((t, i, arr) => arr.indexOf(t) === i)`: keep first
occurrences. -/
def dedupFirstGo (seen : List (List Char)) : List (List Char) → List (List Char)
  | [] => []
  | x :: rest =>
    if x ∈ seen then dedupFirstGo seen rest
    else x :: dedupFirstGo (seen ++ [x]) rest

def dedupFirst (l : List (List Char)) : List (List Char) := dedupFirstGo [] l

/-- `[english, romaji, ...synonyms].filter(Boolean).filter(dedup)`
(hianime.ts lines 333-338). -/
def titlesToTry (info : AnimeInfo) : List (List Char) :=
  dedupFirst ((([info.title.english, info.title.romaji].filterMap id) ++
    info.synonyms).filter (fun t => !t.isEmpty))

/-- The contextual signal chain applied after the compound-title
penalty (hianime.ts lines 408-464): format bonus, episode-count bonus,
year bonus/penalty, season-number bonus/penalty, movie-duration
bonus/penalty, cross-format penalties, long-runner bonus. -/
def contextAdjust (info : AnimeInfo) (titleYears : List (List Char))
    (searchSeasonNum : Option Nat) (item : RawItem) (base : ℚ) : ℚ :=
  let isTV := item.formatText = tvStr
  let isMovie := item.formatText = movieStr
  let isOVA := item.formatText = ovaStr
  let isSpecial := item.formatText = specialStr
  let resultYears := extractYears item.title item.jname
  let resultSeasonNum := extractSeasonNumber item.title
  let score := base
  let score := if info.format = some fmtTV ∧ isTV then score + mkRat 15 100 else score
  let score := if info.format = some fmtMOVIE ∧ isMovie then score + mkRat 15 100 else score
  let score := if info.format = some fmtOVA ∧ isOVA then score + mkRat 1 10 else score
  let score := if info.format = some fmtSPECIAL ∧ isSpecial then score + mkRat 1 10 else score
  let score :=
    if truthyNat info.episodes ∧ item.episodesCount = info.episodes.getD 0 then
      score + mkRat 2 10
    else if truthyNat info.episodes ∧
        ((item.episodesCount : Int) - (info.episodes.getD 0 : Int)).natAbs ≤ 2 then
      score + mkRat 1 10
    else score
  let score := if titleYears ≠ [] ∧ resultYears ≠ [] then
      (if titleYears.any (fun y => resultYears.contains y) then score + mkRat 25 100
       else score - mkRat 3 10)
    else score
  let score := if truthyNat searchSeasonNum ∧ truthyNat resultSeasonNum then
      (if searchSeasonNum = resultSeasonNum then score + mkRat 2 10
       else score - mkRat 4 10)
    else score
  let score := if info.format = some fmtMOVIE ∧ truthyNat info.duration ∧
      truthyNat item.duration then
      (let dd := ((info.duration.getD 0 : Int) - (item.duration.getD 0 : Int)).natAbs
       if dd < 10 then score + mkRat 2 10
       else if dd > 30 then score - mkRat 15 100
       else score)
    else score
  let score := if isMovie ∧ info.format = some fmtTV ∧ epGT info.episodes 1 then
      score - mkRat 3 10 else score
  let score := if isTV ∧ info.format = some fmtMOVIE then score - mkRat 3 10 else score
  let score := if isTV ∧ epGT info.episodes 24 ∧ item.episodesCount > 24 then
      score + mkRat 1 10 else score
  score

/-- Scoring and filtering of one search-result item (the `.each` callback,
hianime.ts lines 350-492): `none` when the item has no id or is discarded
by the single-word false-positive guard, otherwise the scored record that
is considered for the pool and the running best. -/
def processItem (info : AnimeInfo) (titleYears : List (List Char))
    (searchSeasonNum : Option Nat) (searchTitle : List Char) (item : RawItem) :
    Option SeriesMatch :=
  match item.id with
  | Option.none => Option.none
  | some hid =>
    let normalizedHianime := normalizeText item.title
    let normalizedSearch := normalizeText searchTitle
    let searchWords := splitOnChar ' ' normalizedSearch
    let hianimeWords := splitOnChar ' ' normalizedHianime
    let searchWord := searchWords.headD []
    let hasExactWordMatch := hianimeWords.any (fun w => w == searchWord)
    let isOnlySubstring := !hasExactWordMatch && containsSub normalizedHianime searchWord
    if searchWords.length = 1 ∧ hianimeWords.length > 1 ∧
        (isOnlySubstring || (hasExactWordMatch &&
          decide (hianimeWords.length > searchWords.length + 2))) = true then
      Option.none
    else
      let base := calculateTitleScore searchTitle item.title
      let searchWordCount := (splitOnChar ' ' (normalizeText searchTitle)).length
      let resultWordCount := (splitOnChar ' ' (normalizeText item.title)).length
      let base := if searchWordCount = 1 ∧ resultWordCount > 1 ∧
          significantWords.any (fun w => containsSub (normalizeText item.title) w) = true
        then base * mkRat 1 2 else base
      let score := contextAdjust info titleYears searchSeasonNum item base
      some ⟨item.title, hid, score, item.formatText = movieStr, item.formatText = tvStr,
        item.formatText = ovaStr, item.formatText = specialStr,
        item.episodesCount, item.duration, item.jname,
        extractYears item.title item.jname, extractSeasonNumber item.title⟩

structure SearchState where
  best : BestMatch
  pool : List SeriesMatch
deriving DecidableEq, Repr

/-- Pool collection (`score > 0.5`) and running-best update
(`score > bestMatch.score`) for one item. -/
def stepCandidate (info : AnimeInfo) (titleYears : List (List Char))
    (searchSeasonNum : Option Nat) (searchTitle : List Char)
    (st : SearchState) (item : RawItem) : SearchState :=
  match processItem info titleYears searchSeasonNum searchTitle item with
  | Option.none => st
  | some sm =>
    let pool := if sm.score > mkRat 1 2 then st.pool ++ [sm] else st.pool
    let best := if sm.score > st.best.score then
        BestMatch.mk sm.score (some sm.id) Method.title_match
      else st.best
    ⟨best, pool⟩

def processQuery (info : AnimeInfo) (titleYears : List (List Char))
    (searchSeasonNum : Option Nat) (st : SearchState) (searchTitle : List Char)
    (items : List RawItem) : SearchState :=
  items.foldl (stepCandidate info titleYears searchSeasonNum searchTitle) st

/-- The per-variant query loop with the early break once the running best
exceeds 0.9 (hianime.ts lines 342-498). -/
def searchLoop (catalog : List Char → List RawItem) (info : AnimeInfo)
    (titleYears : List (List Char)) (searchSeasonNum : Option Nat) :
    List (List Char) → SearchState → SearchState
  | [], st => st
  | t :: rest, st =>
    let st' := processQuery info titleYears searchSeasonNum st t (catalog t)
    if st'.best.score > mkRat 9 10 then st'
    else searchLoop catalog info titleYears searchSeasonNum rest st'

/-- Stable insertion into a descending-score list: an element moves ahead
only of strictly lower scores, as the comparator `b.score - a.score` under
the (stable) `Array.prototype.sort` does. -/
def insertByScore (m : SeriesMatch) : List SeriesMatch → List SeriesMatch
  | [] => [m]
  | x :: xs => if m.score > x.score then m :: x :: xs else x :: insertByScore m xs

def sortByScoreDesc (l : List SeriesMatch) : List SeriesMatch :=
  l.foldl (fun acc m => insertByScore m acc) []

/-- The exact-title filter of the override phase (hianime.ts lines
503-508). -/
def exactTitlePred (title : List Char) (tlist : List (List Char))
    (m : SeriesMatch) : Bool :=
  normalizeText m.title == normalizeText title ||
  tlist.any (fun t => normalizeText t == normalizeText m.title)

/-- The episode-count-and-format filter (hianime.ts lines 517-522). -/
def exactEpisodeFormatPred (info : AnimeInfo) (m : SeriesMatch) : Bool :=
  info.episodes == some m.episodes &&
  ((info.format == some fmtTV && m.isTV) ||
   (info.format == some fmtMOVIE && m.isMovie) ||
   (info.format == some fmtOVA && m.isOVA))

/-- The shared-year filter (hianime.ts lines 531-533). -/
def yearPred (titleYears : List (List Char)) (m : SeriesMatch) : Bool :=
  m.years.any (fun y => titleYears.contains y)

/-- The season-number filter (hianime.ts lines 543-545). -/
def seasonPred (searchSeasonNum : Option Nat) (m : SeriesMatch) : Bool :=
  m.seasonNum == searchSeasonNum

/-- The override phase over the collected pool (hianime.ts lines 500-571):
sort by descending score; pick the best exact-title match, else the first
episode+format match, else (year present) the first year match, else
(season number present) the first season-number match, else (TV source) a
TV candidate within 0.2 of the top; in the non-exact-title branch the
highest scorer finally overrides any pick it strictly outscores. -/
def selectBestMatch (pool : List SeriesMatch) (entry : BestMatch)
    (title : List Char) (tlist : List (List Char)) (titleYears : List (List Char))
    (searchSeasonNum : Option Nat) (info : AnimeInfo) : BestMatch :=
  if pool.isEmpty then entry
  else
    let sorted := sortByScoreDesc pool
    match sorted.filter (exactTitlePred title tlist) with
    | best :: _ => BestMatch.mk best.score (some best.id) Method.exact_title_match
    | [] =>
      let r1 :=
        match sorted.filter (exactEpisodeFormatPred info) with
        | best :: _ => BestMatch.mk best.score (some best.id) Method.exact_match
        | [] =>
          if titleYears ≠ [] then
            match sorted.filter (yearPred titleYears) with
            | best :: _ => BestMatch.mk best.score (some best.id) Method.year_match
            | [] => entry
          else if truthyNat searchSeasonNum then
            match sorted.filter (seasonPred searchSeasonNum) with
            | best :: _ => BestMatch.mk best.score (some best.id) Method.season_match
            | [] => entry
          else if info.format == some fmtTV then
            match sorted, sorted.filter (fun m => m.isTV) with
            | top :: _, best :: _ =>
              if top.score - best.score < mkRat 2 10 then
                BestMatch.mk best.score (some best.id) Method.format_priority
              else entry
            | _, _ => entry
          else entry
      match sorted with
      | top :: _ =>
        if r1.method = Method.none ∨ top.score > r1.score then
          BestMatch.mk top.score (some top.id) Method.highest_score
        else r1
      | [] => r1

/-- `findClose`-style single pass implementing
`title.replace(/\([^)]*\)/g, '')`: a parenthesised region (up to the first
closing parenthesis) is dropped; an opening parenthesis never closed is
kept verbatim. -/
def stripParensGo (acc : List Char) (inside : Bool) (buf : List Char) :
    List Char → List Char
  | [] => acc ++ (if inside then buf else [])
  | c :: rest =>
    if inside then
      if c = ')' then stripParensGo acc false [] rest
      else stripParensGo acc inside (buf ++ [c]) rest
    else
      if c = '(' then stripParensGo acc true [c] rest
      else stripParensGo (acc ++ [c]) inside [] rest

def stripParens (l : List Char) : List Char := stripParensGo [] false [] l

/-- Match of `kw (\d+)` — the keyword, one literal space, digits —
case-insensitively at the current position, returning the remainder. -/
def matchKwSpNum (kw : List Char) (l : List Char) : Option (List Char) :=
  if lowerStr (l.take kw.length) = kw then
    match l.drop kw.length with
    | sp :: rest2 =>
      if sp = ' ' then
        let ds := takeDigits rest2
        if ds.isEmpty then Option.none else some (rest2.drop ds.length)
      else Option.none
    | [] => Option.none
  else Option.none

/-- Global replacement of `/kw \d+/gi` by the empty string; the fuel is
the input length (each step consumes at least one character). -/
def removeKwNumGo (kw : List Char) : Nat → List Char → List Char
  | _, [] => []
  | 0, l => l
  | fuel + 1, l@(c :: rest) =>
    match matchKwSpNum kw l with
    | some remainder => removeKwNumGo kw fuel remainder
    | Option.none => c :: removeKwNumGo kw fuel rest

def removeKwNum (kw : List Char) (l : List Char) : List Char :=
  removeKwNumGo kw l.length l

/-- The `baseTitle` of the low-confidence retry (hianime.ts lines
575-578): parentheticals, `season N` and `part N` markers removed, then
trimmed. -/
def baseTitleOf (title : List Char) : List Char :=
  trimJS (removeKwNum ((r"part").data) (removeKwNum ((r"season").data) (stripParens title)))

/-- Scoring of one item of the alternative search
(`searchAnimeAlternative`, hianime.ts lines 600-642). -/
def stepAlternative (info : AnimeInfo) (originalYears : List (List Char))
    (originalSeasonNum : Option Nat) (baseTitle : List Char)
    (best : BestMatch) (item : RawItem) : BestMatch :=
  match item.id with
  | Option.none => best
  | some hid =>
    let resultYears := extractYears item.title item.jname
    let resultSeasonNum := extractSeasonNumber item.title
    let score := calculateTitleScore baseTitle item.title
    let score := if info.format = some fmtTV ∧ item.formatText = tvStr then
        score + mkRat 15 100 else score
    let score := if truthyNat info.episodes ∧ item.episodesCount = info.episodes.getD 0 then
        score + mkRat 2 10 else score
    let score := if originalYears ≠ [] ∧
        resultYears.any (fun y => originalYears.contains y) = true then
        score + mkRat 25 100 else score
    let score := if truthyNat originalSeasonNum ∧ resultSeasonNum = originalSeasonNum then
        score + mkRat 2 10 else score
    if score > best.score then BestMatch.mk score (some hid) Method.alternative else best

def searchAnimeAlternative (catalog : List Char → List RawItem)
    (baseTitle : List Char) (info : AnimeInfo) (originalYears : List (List Char))
    (originalSeasonNum : Option Nat) : Option BestMatch :=
  let best := (catalog baseTitle).foldl
    (stepAlternative info originalYears originalSeasonNum baseTitle)
    (BestMatch.mk 0 Option.none Method.alternative)
  if best.score > mkRat 1 2 then some best else Option.none

/-- `Nat` printed in decimal, for `seasonYear.toString()`. -/
def natToDigits (n : Nat) : List Char := (Nat.repr n).data

/-- `searchAnime(title, animeInfo)` (hianime.ts lines 304-598) as a pure
function of the catalog collaborator.  The read-through `searchCache` is
not modelled (first-call semantics). -/
def searchAnime (catalog : List Char → List RawItem) (title : List Char)
    (info : AnimeInfo) : BestMatch :=
  let titleYears := (extractYears title Option.none) ++
    (if truthyNat info.seasonYear then [natToDigits (info.seasonYear.getD 0)] else [])
  let searchSeasonNum := extractSeasonNumber title
  let tlist := titlesToTry info
  let st := searchLoop catalog info titleYears searchSeasonNum tlist
    ⟨BestMatch.mk 0 Option.none Method.none, []⟩
  let bm1 := selectBestMatch st.pool st.best title tlist titleYears searchSeasonNum info
  let bm2 :=
    if bm1.score < mkRat 6 10 then
      let baseTitle := baseTitleOf title
      if baseTitle ≠ title ∧ baseTitle.length > 3 then
        match searchAnimeAlternative catalog baseTitle info titleYears searchSeasonNum with
        | some alt => if alt.score > bm1.score then alt else bm1
        | Option.none => bm1
      else bm1
    else bm1
  if bm2.score > mkRat 4 10 then bm2 else BestMatch.mk 0 Option.none Method.none

/-- `title.english || title.romaji` under JavaScript truthiness. -/
def firstTruthy (a b : Option (List Char)) : Option (List Char) :=
  match a with
  | some x => if !x.isEmpty then some x else
      (match b with
       | some y => if !y.isEmpty then some y else Option.none
       | Option.none => Option.none)
  | Option.none =>
    match b with
    | some y => if !y.isEmpty then some y else Option.none
    | Option.none => Option.none

structure EpisodeOutcome where
  anilistId : Int
  hianimeId : List Char
  title : List Char
  matchConfidence : ℚ
  matchMethod : Method
  totalEpisodes : Nat
deriving DecidableEq, Repr

/-- The exported entry point `getEpisodesForAnime` (hianime.ts lines
722-775) as a pure function of the collaborator results, with each
`throw` modelled as `Except.error` of the thrown message: invalid id,
missing AniList info, missing title, an id-less search result, and an
empty episode list all raise. -/
def getEpisodesForAnime (anilistId : Int) (info : Option AnimeInfo)
    (catalog : List Char → List RawItem) (episodeCountOf : List Char → Nat) :
    Except (List Char) EpisodeOutcome :=
  if anilistId ≤ 0 then Except.error ((r"Invalid anilistId").data)
  else
    match info with
    | Option.none => Except.error ((r"Could not fetch anime info from Anilist").data)
    | some ai =>
      match firstTruthy ai.title.english ai.title.romaji with
      | Option.none => Except.error ((r"No English or romaji title found").data)
      | some title =>
        let searchResult := searchAnime catalog title ai
        match searchResult.id with
        | Option.none => Except.error ((r"Could not find anime on Hianime").data)
        | some hid =>
          if episodeCountOf hid = 0 then
            Except.error ((r"Could not fetch episodes").data)
          else
            Except.ok ⟨anilistId, hid, title, searchResult.score,
              searchResult.method, episodeCountOf hid⟩


/-! ## The AnimeSama season/part resolver

`extractSeasonInfo` (AnimeSama mapper lines 192-225) and `findBestSeason`
(lines 956-1085), with the slug-parsing regexes embedded as leftmost-match
scanners. -/

/-- `\b` before the current position. -/
def boundaryB (prev : Option Char) : Bool :=
  match prev with
  | Option.none => true
  | some p => !isWordCharJS p

/-- `\b` after the current position. -/
def boundaryA (l : List Char) : Bool :=
  match l with
  | [] => true
  | d :: _ => !isWordCharJS d

/-- Leftmost match of a positional matcher with arbitrary result. -/
def scanFirst {α : Type} (f : List Char → Option α) : List Char → Option α
  | [] => Option.none
  | l@(_ :: rest) =>
    match f l with
    | some x => some x
    | Option.none => scanFirst f rest

/-- Leftmost match of a positional matcher that inspects the preceding
character (for `\b`). -/
def scanFirstPrev {α : Type} (f : Option Char → List Char → Option α) :
    Option Char → List Char → Option α
  | _, [] => Option.none
  | prev, l@(c :: rest) =>
    match f prev l with
    | some x => some x
    | Option.none => scanFirstPrev f (some c) rest

/-- Match of `\bLETTER(\d+)\b` (case-insensitive) at the current
position. -/
def matchBLetterNumAt (letter : Char) (prev : Option Char) : List Char → Option Nat
  | c :: rest =>
    if boundaryB prev && (toLowerJS c = letter : Bool) then
      let ds := takeDigits rest
      if !ds.isEmpty && boundaryA (rest.drop ds.length) then some (digitsToNat ds)
      else Option.none
    else Option.none
  | [] => Option.none

/-- Match of `part(?:ie)?\s*(\d+)` (case-insensitive) at the current
position, with the backtracking of the optional `ie`. -/
def matchPartNumAt (l : List Char) : Option Nat :=
  if lowerStr (l.take 4) = (r"part").data then
    let after := l.drop 4
    let tryIE :=
      if lowerStr (after.take 2) = (r"ie").data then
        let after2 := (after.drop 2).dropWhile isSpaceJS
        let ds := takeDigits after2
        if ds.isEmpty then Option.none else some (digitsToNat ds)
      else Option.none
    match tryIE with
    | some n => some n
    | Option.none =>
      let after2 := after.dropWhile isSpaceJS
      let ds := takeDigits after2
      if ds.isEmpty then Option.none else some (digitsToNat ds)
  else Option.none

/-- Match of `\bp(?:t)?\s*(\d+)\b` (case-insensitive) at the current
position. -/
def matchPTNumAt (prev : Option Char) : List Char → Option Nat
  | c :: rest =>
    if boundaryB prev && (toLowerJS c = 'p' : Bool) then
      let digitsAfter := fun (xs : List Char) =>
        let xs2 := xs.dropWhile isSpaceJS
        let ds := takeDigits xs2
        if !ds.isEmpty && boundaryA (xs2.drop ds.length) then some (digitsToNat ds)
        else Option.none
      let tryT :=
        match rest with
        | t :: rest2 => if toLowerJS t = 't' then digitsAfter rest2 else Option.none
        | [] => Option.none
      match tryT with
      | some n => some n
      | Option.none => digitsAfter rest
    else Option.none
  | [] => Option.none

structure SeasonInfo where
  season : Option Nat
  part : Option Nat
deriving DecidableEq, Repr

/-- `extractSeasonInfo(title)` (AnimeSama mapper lines 192-225): the first
season pattern that matches wins, independently the first part pattern. -/
def extractSeasonInfo (title : List Char) : SeasonInfo :=
  let season :=
    (scanFirst (matchKwNumAt ((r"saison").data)) title).orElse fun _ =>
    (scanFirst (matchKwNumAt ((r"season").data)) title).orElse fun _ =>
    scanFirstPrev (matchBLetterNumAt 's') Option.none title
  let part :=
    (scanFirst matchPartNumAt title).orElse fun _ =>
    (scanFirstPrev matchPTNumAt Option.none title).orElse fun _ =>
    scanFirst (matchKwNumAt ((r"cour").data)) title
  ⟨season, part⟩

structure AnimeSamaSeason where
  name : List Char
  seasonSlug : List Char
  language : List Char
  episodeCount : Nat
deriving DecidableEq, Repr

/-- Match of `saison(\d+)(?:-(\d+))?` (case-sensitive, as in the source)
at the current position. -/
def matchSaisonAt (l : List Char) : Option (Nat × Option Nat) :=
  if l.take 6 = (r"saison").data then
    let after := l.drop 6
    let ds := takeDigits after
    if ds.isEmpty then Option.none
    else
      match after.drop ds.length with
      | '-' :: rest3 =>
        let ds2 := takeDigits rest3
        if ds2.isEmpty then some (digitsToNat ds, Option.none)
        else some (digitsToNat ds, some (digitsToNat ds2))
      | _ => some (digitsToNat ds, Option.none)
  else Option.none

/-- Match of `saison(\d+)-(\d+)` (the part is required) at the current
position. -/
def matchSaisonReqAt (l : List Char) : Option (Nat × Nat) :=
  if l.take 6 = (r"saison").data then
    let after := l.drop 6
    let ds := takeDigits after
    if ds.isEmpty then Option.none
    else
      match after.drop ds.length with
      | '-' :: rest3 =>
        let ds2 := takeDigits rest3
        if ds2.isEmpty then Option.none
        else some (digitsToNat ds, digitsToNat ds2)
      | _ => Option.none
  else Option.none

/-- Match of `\b(II|III|IV|V|VI|2|3|4|5|6)\b` (case-insensitive) at the
current position, already mapped through `romanToNumber`. -/
def matchRomanAt (prev : Option Char) (l : List Char) : Option Nat :=
  if boundaryB prev then
    let tryOne := fun (pat : List Char) (n : Nat) =>
      if lowerStr (l.take pat.length) = pat && boundaryA (l.drop pat.length) then some n
      else Option.none
    (tryOne ((r"ii").data) 2).orElse fun _ =>
    (tryOne ((r"iii").data) 3).orElse fun _ =>
    (tryOne ((r"iv").data) 4).orElse fun _ =>
    (tryOne ((r"v").data) 5).orElse fun _ =>
    (tryOne ((r"vi").data) 6).orElse fun _ =>
    (tryOne ((r"2").data) 2).orElse fun _ =>
    (tryOne ((r"3").data) 3).orElse fun _ =>
    (tryOne ((r"4").data) 4).orElse fun _ =>
    (tryOne ((r"5").data) 5).orElse fun _ =>
    tryOne ((r"6").data) 6
  else Option.none

/-- The film/OAV/kai filter applied before all priorities (findBestSeason
lines 964-973): active when the source has more than five episodes, and
undone when it would empty the list. -/
def seasonsToSearch (seasons : List AnimeSamaSeason) (targetEpisodes : Nat) :
    List AnimeSamaSeason :=
  let mainSeasons :=
    if targetEpisodes > 5 then
      seasons.filter (fun s =>
        !containsSub s.seasonSlug ((r"film").data) &&
        !containsSub s.seasonSlug ((r"oav").data) &&
        !containsSub s.seasonSlug ((r"kai").data))
    else seasons
  if mainSeasons.isEmpty then seasons else mainSeasons

/-- Priority 1 (lines 976-1010): exact season+part slug match when both
were extracted, else season match with no (or zero) slug part. -/
def priorityOne (sts : List AnimeSamaSeason) (si : SeasonInfo) : Option (List Char) :=
  match si.season with
  | some sn =>
    let exact : Option AnimeSamaSeason :=
      match si.part with
      | some pn => sts.find? (fun (s : AnimeSamaSeason) =>
          match scanFirst matchSaisonAt s.seasonSlug with
          | some (ss, sp) => ss == sn && sp == some pn
          | Option.none => false)
      | Option.none => Option.none
    match exact with
    | some e => some e.seasonSlug
    | Option.none =>
      match sts.find? (fun s =>
        match scanFirst matchSaisonAt s.seasonSlug with
        | some (ss, sp) => ss == sn && sp.getD 0 == 0
        | Option.none => false) with
      | some e => some e.seasonSlug
      | Option.none => Option.none
  | Option.none => Option.none

/-- Priority 2 (lines 1013-1026): part-only match when no season number
was extracted. -/
def priorityTwo (sts : List AnimeSamaSeason) (si : SeasonInfo) : Option (List Char) :=
  match si.part, si.season with
  | some pn, Option.none =>
    match sts.find? (fun s =>
      match matchSaisonReqAt s.seasonSlug with
      | some (_, sp) => sp == pn
      | Option.none => false) with
    | some e => some e.seasonSlug
    | Option.none => Option.none
  | _, _ => Option.none

/-- Priority 3 (lines 1029-1050): Roman-numeral/digit sequel cue in the
full title mapped to an expected season number. -/
def priorityThree (sts : List AnimeSamaSeason) (fullTitle : List Char) :
    Option (List Char) :=
  match scanFirstPrev matchRomanAt Option.none fullTitle with
  | some expected =>
    if expected ≠ 0 then
      match sts.find? (fun s =>
        match scanFirst matchSaisonAt s.seasonSlug with
        | some (ss, _) => ss == expected
        | Option.none => false) with
      | some e => some e.seasonSlug
      | Option.none => Option.none
    else Option.none
  | Option.none => Option.none

/-- Priority 4 (lines 1053-1080): exact episode-count match, else the
closest within a strict running tolerance starting at 3. -/
def priorityFour (sts : List AnimeSamaSeason) (targetEpisodes : Nat) :
    Option (List Char) :=
  if targetEpisodes ≠ 0 then
    match sts.find? (fun s => s.episodeCount == targetEpisodes) with
    | some e => some e.seasonSlug
    | Option.none =>
      let closest := sts.foldl (fun acc s =>
        let diff := ((s.episodeCount : Int) - (targetEpisodes : Int)).natAbs
        if diff < acc.2 then (some s, diff) else acc)
        ((Option.none : Option AnimeSamaSeason), 3)
      match closest.1 with
      | some e => some e.seasonSlug
      | Option.none => Option.none
  else Option.none

/-- `findBestSeason(seasons, targetEpisodes, seasonInfo, fullTitle)`
(AnimeSama mapper lines 956-1085): the first priority producing a result
wins, defaulting to the first candidate of the filtered list. -/
def findBestSeason (seasons : List AnimeSamaSeason) (targetEpisodes : Nat)
    (seasonInfo : SeasonInfo) (fullTitle : List Char) : Option (List Char) :=
  if seasons.isEmpty then Option.none
  else
    let sts := seasonsToSearch seasons targetEpisodes
    match priorityOne sts seasonInfo with
    | some r => some r
    | Option.none =>
      match priorityTwo sts seasonInfo with
      | some r => some r
      | Option.none =>
        match priorityThree sts fullTitle with
        | some r => some r
        | Option.none =>
          match priorityFour sts targetEpisodes with
          | some r => some r
          | Option.none => some ((sts.headD (AnimeSamaSeason.mk [] [] [] 0)).seasonSlug)

/-! ### Cross-mapper TMDB season detection (src/src/mappers/cross-mapper.ts) -/

/-- `parseInt(s)` in base 10: skip leading whitespace, optional sign,
then decimal digits; `NaN` (here `none`) when no digit follows. -/
def parseIntJS (l : List Char) : Option Int :=
  match l.dropWhile isSpaceJS with
  | '-' :: rest =>
    let ds := takeDigits rest
    if ds.isEmpty then Option.none else some (-(digitsToNat ds : Int))
  | '+' :: rest =>
    let ds := takeDigits rest
    if ds.isEmpty then Option.none else some ((digitsToNat ds : Int))
  | t =>
    let ds := takeDigits t
    if ds.isEmpty then Option.none else some ((digitsToNat ds : Int))

/-- `parseDate(dateString)` (cross-mapper lines 629-640): split on `-`,
require exactly three parts, `parseInt` each, `null` on any `NaN`. -/
def parseDate (dateString : List Char) : Option (Int × Int × Int) :=
  if dateString.isEmpty then Option.none
  else
    match splitOnChar '-' dateString with
    | [p1, p2, p3] =>
      match parseIntJS p1, parseIntJS p2, parseIntJS p3 with
      | some y, some m, some d => some (y, m, d)
      | _, _, _ => Option.none
    | _ => Option.none

/-- `monthsBetween(date1, date2)` (cross-mapper lines 643-645). -/
def monthsBetween (d1 d2 : Int × Int) : Int :=
  (d2.1 - d1.1) * 12 + (d2.2 - d1.2)

/-- Scan for the closing `>` of `/<[^>]*>/`; `none` when none remains. -/
def findTagClose : List Char → Option (List Char)
  | [] => Option.none
  | c :: rest => if c = '>' then some rest else findTagClose rest

/-- `replace(/<[^>]*>/g, '')`: a `<` with a later `>` is removed together
with everything between; an unclosed `<` is kept.  Fuel bounds the scan
(each step consumes at least one character). -/
def stripTagsGo : Nat → List Char → List Char
  | 0, l => l
  | _, [] => []
  | fuel + 1, c :: rest =>
    if c = '<' then
      match findTagClose rest with
      | some rest' => stripTagsGo fuel rest'
      | Option.none => c :: stripTagsGo fuel rest
    else c :: stripTagsGo fuel rest

def stripTags (l : List Char) : List Char := stripTagsGo l.length l

/-- `normalizeDescription(desc)` (cross-mapper lines 648-656): strip HTML
tags, collapse whitespace, lower-case, trim; `''` stays `''`. -/
def normalizeDescription (desc : List Char) : List Char :=
  if desc.isEmpty then []
  else trimJS (lowerStr (collapseSpaces (stripTags desc)))

/-- Insertion-ordered deduplication, as iterating a JS `Set`. -/
def dedupStrs (ws : List (List Char)) : List (List Char) := ws.foldl setAdd []

/-- `calculateDescriptionSimilarity(desc1, desc2)` (cross-mapper lines
659-681): Jaccard overlap of the distinct words longer than 4 characters. -/
def calculateDescriptionSimilarity (desc1 desc2 : List Char) : ℚ :=
  if desc1.isEmpty || desc2.isEmpty then mkRat 0 1
  else
    let words1 := (splitOnChar ' ' desc1).filter (fun w => 4 < w.length)
    let words2 := (splitOnChar ' ' desc2).filter (fun w => 4 < w.length)
    if words1.isEmpty || words2.isEmpty then mkRat 0 1
    else
      let set1 := dedupStrs words1
      let set2 := dedupStrs words2
      let nMatches := (set1.filter (fun w => set2.contains w)).length
      let union := (dedupStrs (set1 ++ set2)).length
      mkRat nMatches union

/-- A TMDB season record as consumed by `detectTMDBSeason`; absent or
falsy numeric fields are 0, absent strings are `none`. -/
structure TMDBSeason where
  name : List Char
  overview : Option (List Char)
  season_number : Nat
  episode_count : Nat
  air_date : Option (List Char)
deriving DecidableEq

/-- An AniList fuzzy date: `year`/`month` may be absent (`null`). -/
structure FuzzyDate where
  year : Option Nat
  month : Option Nat
deriving DecidableEq

/-- The slice of `AniListMedia` that `detectTMDBSeason` reads. -/
structure AniListMedia where
  description : Option (List Char)
  episodes : Option Nat
  startDate : Option FuzzyDate
deriving DecidableEq

/-- Truthiness of an optional string: `undefined` and `''` are falsy. -/
def truthyOStr (o : Option (List Char)) : Bool := !(o.getD []).isEmpty

/-- The 50/30/10 episode-distance bonus (cross-mapper lines 497-504 and
570-577). -/
def epDistBonus (eps count : Nat) : Int :=
  if ((count : Int) - (eps : Int)).natAbs = 0 then 50
  else if ((count : Int) - (eps : Int)).natAbs ≤ 2 then 30
  else if ((count : Int) - (eps : Int)).natAbs ≤ 5 then 10
  else 0

/-- The episode-count bonus and split-cour check of the date branch
(cross-mapper lines 495-516), entered only when both `animeInfo.episodes`
and `season.episode_count` are truthy: the distance bonus, plus 20 with
the flag set when the month gap is 3-6 and the episode ratio is within
[0.3, 0.7]. -/
def episodeBonusSplit (monthsDiff : Int) (episodes : Option Nat) (count : Nat) :
    Int × Bool :=
  if truthyNat episodes && count != 0 then
    if 3 ≤ monthsDiff.natAbs ∧ monthsDiff.natAbs ≤ 6 then
      if mkRat 3 10 ≤ mkRat (episodes.getD 0) count ∧
          mkRat (episodes.getD 0) count ≤ mkRat 7 10 then
        (epDistBonus (episodes.getD 0) count + 20, true)
      else (epDistBonus (episodes.getD 0) count, false)
    else (epDistBonus (episodes.getD 0) count, false)
  else (0, false)

/-- The description-similarity bonus (cross-mapper lines 519-527 and
580-587): `floor(sim * 20)` once the similarity exceeds 0.3. -/
def descBonus (normDesc : List Char) (overview : Option (List Char)) : Int :=
  if !normDesc.isEmpty && truthyOStr overview then
    let sim := calculateDescriptionSimilarity normDesc
      (normalizeDescription (overview.getD []))
    if mkRat 3 10 < sim then Rat.floor (sim * mkRat 20 1) else 0
  else 0

/-- The date-distance score of the date branch (cross-mapper lines
483-493): 200/150/100/50 by month gap, `none` when the gap exceeds six
months (the season is skipped). -/
def dateScoreOf (monthsDiff : Int) : Option Int :=
  if monthsDiff = 0 then some 200
  else if monthsDiff.natAbs = 1 then some 150
  else if monthsDiff.natAbs ≤ 3 then some 100
  else if monthsDiff.natAbs ≤ 6 then some 50
  else Option.none

/-- The scoring tail of one date-branch iteration, once the air date has
been parsed and the month gap computed: add the episode and description
bonuses and keep the season when it strictly beats the running best
(cross-mapper lines 483-531). -/
def seasonStepScored (st : Option TMDBSeason × Int × Bool) (season : TMDBSeason)
    (monthsDiff : Int) (episodes : Option Nat) (normDesc : List Char) :
    Option TMDBSeason × Int × Bool :=
  match dateScoreOf monthsDiff with
  | Option.none => st
  | some base =>
    if st.2.1 < base + (episodeBonusSplit monthsDiff episodes season.episode_count).1 +
        descBonus normDesc season.overview then
      (some season,
       base + (episodeBonusSplit monthsDiff episodes season.episode_count).1 +
         descBonus normDesc season.overview,
       (episodeBonusSplit monthsDiff episodes season.episode_count).2)
    else st

/-- One iteration of the date-branch loop of `detectTMDBSeason`
(cross-mapper lines 469-532); the state is
`(bestMatch, bestScore, isSplitCourPart2)`. -/
def seasonStep (y m : Nat) (episodes : Option Nat) (normDesc : List Char)
    (st : Option TMDBSeason × Int × Bool) (season : TMDBSeason) :
    Option TMDBSeason × Int × Bool :=
  if !truthyOStr season.air_date then st
  else
    match parseDate (season.air_date.getD []) with
    | Option.none => st
    | some (sy, sm, _) =>
      seasonStepScored st season (monthsBetween ((y : Int), (m : Int)) (sy, sm))
        episodes normDesc

/-- One iteration of the year-fallback loop of `detectTMDBSeason`
(cross-mapper lines 550-590); the state is `(bestMatch, bestScore)`. -/
def yearStep (animeYear : Nat) (eps : Nat) (normDesc : List Char)
    (st : Option TMDBSeason × Int) (season : TMDBSeason) :
    Option TMDBSeason × Int :=
  let seasonYear : Option Int :=
    match season.air_date with
    | some ds => if ds.isEmpty then Option.none else parseIntJS (ds.take 4)
    | Option.none => Option.none
  match seasonYear with
  | Option.none => st
  | some sy =>
    if sy = 0 then st
    else
      let yearDiff := (sy - (animeYear : Int)).natAbs
      let base : Option Int :=
        if yearDiff = 0 then some 100
        else if yearDiff = 1 then some 50
        else Option.none
      match base with
      | Option.none => st
      | some b =>
        let epBonus : Int :=
          if season.episode_count != 0 then
            let episodeDiff := ((season.episode_count : Int) - (eps : Int)).natAbs
            if episodeDiff = 0 then 50
            else if episodeDiff ≤ 2 then 30
            else if episodeDiff ≤ 5 then 10
            else 0
          else 0
        let score := b + epBonus + descBonus normDesc season.overview
        if st.2 < score then (some season, score) else st

/-- The value returned by `detectTMDBSeason`; `splitCourPart` is set only
by the date branch. -/
structure SeasonDetection where
  seasonNumber : Nat
  seasonName : List Char
  splitCourPart : Option Nat
deriving DecidableEq

/-- The scored date branch of `detectTMDBSeason` (cross-mapper lines
464-543): requires a truthy start year and month, folds `seasonStep` over
the seasons, and returns the best match when its score reaches 50,
attaching `splitCourPart` 2 when the split-cour flag travelled with it,
else 1. -/
def dateBranch (seasons : List TMDBSeason) (normDesc : List Char)
    (startDate : Option FuzzyDate) (episodes : Option Nat) :
    Option SeasonDetection :=
  match startDate with
  | some sd =>
    if truthyNat sd.year && truthyNat sd.month then
      match seasons.foldl
          (seasonStep (sd.year.getD 0) (sd.month.getD 0) episodes normDesc)
          (Option.none, 0, false) with
      | (some best, bestScore, isSplit) =>
        if 50 ≤ bestScore then
          some (SeasonDetection.mk best.season_number best.name
            (some (if isSplit then 2 else 1)))
        else Option.none
      | (Option.none, _, _) => Option.none
    else Option.none
  | Option.none => Option.none

/-- The year+episodes fallback of `detectTMDBSeason` (cross-mapper lines
546-602): accepted at score ≥ 50; no `splitCourPart` in the result. -/
def yearBranch (seasons : List TMDBSeason) (normDesc : List Char)
    (animeYear : Option Nat) (episodes : Option Nat) : Option SeasonDetection :=
  if truthyNat animeYear && truthyNat episodes then
    match seasons.foldl (yearStep (animeYear.getD 0) (episodes.getD 0) normDesc)
        (Option.none, 0) with
    | (some best, bestScore) =>
      if 50 ≤ bestScore then
        some (SeasonDetection.mk best.season_number best.name Option.none)
      else Option.none
    | (Option.none, _) => Option.none
  else Option.none

/-- The year-only last resort of `detectTMDBSeason` (cross-mapper lines
606-617), taken when no episode count is available: the first season
whose air-date year parses truthy and equals the source year; no
`splitCourPart` in the result. -/
def lastResortYear (seasons : List TMDBSeason) (animeYear : Option Nat)
    (episodes : Option Nat) : Option SeasonDetection :=
  if truthyNat animeYear && !truthyNat episodes then
    match seasons.find? (fun season =>
      match season.air_date with
      | some ds =>
        if ds.isEmpty then false
        else
          match parseIntJS (ds.take 4) with
          | some sy => sy != 0 && sy == ((animeYear.getD 0 : Nat) : Int)
          | Option.none => false
      | Option.none => false) with
    | some season =>
      some (SeasonDetection.mk season.season_number season.name Option.none)
    | Option.none => Option.none
  else Option.none

/-- `detectTMDBSeason(tmdbId, animeInfo, animeYear)` (cross-mapper lines
453-626), with the already fetched season list passed in: the scored date
branch, then the year+episodes fallback, then the year-only last resort,
else `null`. -/
def detectTMDBSeason (seasons : List TMDBSeason) (animeInfo : AniListMedia)
    (animeYear : Option Nat) : Option SeasonDetection :=
  if seasons.isEmpty then Option.none
  else
    match dateBranch seasons (normalizeDescription (animeInfo.description.getD []))
        animeInfo.startDate animeInfo.episodes with
    | some res => some res
    | Option.none =>
      match yearBranch seasons (normalizeDescription (animeInfo.description.getD []))
          animeYear animeInfo.episodes with
      | some res => some res
      | Option.none => lastResortYear seasons animeYear animeInfo.episodes

/-- The conditions cross-mapper lines 495-515 require of the season the
split-cour flag was computed for: a parseable air date whose month gap
from the source start lies in [3, 6], a truthy source episode count and
season episode count, and an episode ratio within [0.3, 0.7]. -/
def splitCourEvidence (y m : Nat) (episodes : Option Nat) (s : TMDBSeason) : Prop :=
  ∃ sy sm sd, parseDate (s.air_date.getD []) = some (sy, sm, sd) ∧
    3 ≤ (monthsBetween ((y : Int), (m : Int)) (sy, sm)).natAbs ∧
    (monthsBetween ((y : Int), (m : Int)) (sy, sm)).natAbs ≤ 6 ∧
    ∃ e, episodes = some e ∧ e ≠ 0 ∧ s.episode_count ≠ 0 ∧
      mkRat 3 10 ≤ mkRat e s.episode_count ∧ mkRat e s.episode_count ≤ mkRat 7 10

end ZeroMapper

namespace ZeroMapper

/-! ## Theorems -/

theorem char_eq_of_toNat {a b : Char} (h : a.toNat = b.toNat) : a = b :=
  Char.ext (UInt32.ext h)

theorem toNat_ofNat_valid {n : Nat} (h : n.isValidChar) : (Char.ofNat n).toNat = n := by
  simp only [Char.ofNat, dif_pos h]
  rfl

theorem space_toNat : (' ' : Char).toNat = 32 := rfl

theorem isSpaceJS_space : isSpaceJS ' ' = true := rfl

theorem eq_space_of_toNat {c : Char} (h : c.toNat = 32) : c = ' ' :=
  char_eq_of_toNat (by rw [h, space_toNat])

theorem isWordCharJS_iff {c : Char} :
    isWordCharJS c = true ↔
    (48 ≤ c.toNat ∧ c.toNat ≤ 57) ∨ (65 ≤ c.toNat ∧ c.toNat ≤ 90) ∨
    (97 ≤ c.toNat ∧ c.toNat ≤ 122) ∨ c.toNat = 95 := by
  simp only [isWordCharJS, Bool.or_eq_true, Bool.and_eq_true, decide_eq_true_eq]
  omega

theorem isSpaceJS_iff {c : Char} :
    isSpaceJS c = true ↔ c.toNat = 32 ∨ (9 ≤ c.toNat ∧ c.toNat ≤ 13) := by
  simp only [isSpaceJS, Bool.or_eq_true, decide_eq_true_eq]
  omega

theorem goodChar_iff {c : Char} :
    goodChar c = true ↔
    (48 ≤ c.toNat ∧ c.toNat ≤ 57) ∨ (97 ≤ c.toNat ∧ c.toNat ≤ 122) ∨
    c.toNat = 95 ∨ c.toNat = 32 := by
  simp only [goodChar, isWordCharJS, Bool.or_eq_true, Bool.and_eq_true,
    Bool.not_eq_true', Bool.and_eq_false_iff, decide_eq_true_eq,
    decide_eq_false_iff_not]
  omega

theorem goodChar_toNat {c : Char} (h : goodChar c = true) :
    (48 ≤ c.toNat ∧ c.toNat ≤ 57) ∨ (97 ≤ c.toNat ∧ c.toNat ≤ 122) ∨
    c.toNat = 95 ∨ c.toNat = 32 :=
  goodChar_iff.mp h

theorem goodChar_toLower {c : Char} (h : goodChar c = true) : toLowerJS c = c := by
  have := goodChar_toNat h
  simp only [toLowerJS, Bool.and_eq_true, decide_eq_true_eq]
  rw [if_neg]
  omega

theorem goodChar_expand {c : Char} (h : goodChar c = true) : expandChar c = [c] := by
  have := goodChar_toNat h
  simp only [expandChar]
  rw [if_neg (by omega), if_neg (by omega), if_neg (by omega), if_neg (by omega)]

theorem goodChar_keep {c : Char} (h : goodChar c = true) :
    (isWordCharJS c || isSpaceJS c) = true := by
  have := goodChar_toNat h
  simp only [Bool.or_eq_true, isWordCharJS_iff, isSpaceJS_iff]
  omega

theorem goodChar_space_iff {c : Char} (h : goodChar c = true) :
    isSpaceJS c = true ↔ c = ' ' := by
  constructor
  · intro hs
    have h1 := goodChar_toNat h
    have h2 := isSpaceJS_iff.mp hs
    exact eq_space_of_toNat (by omega)
  · intro hc; subst hc; exact isSpaceJS_space

theorem map_toLower_id {l : List Char} (h : ∀ c ∈ l, goodChar c = true) :
    l.map toLowerJS = l := by
  induction l with
  | nil => rfl
  | cons c rest ih =>
    simpa [goodChar_toLower (h c (by simp))] using
      ih (fun d hd => h d (by simp [hd]))

theorem flatMap_expand_id {l : List Char} (h : ∀ c ∈ l, goodChar c = true) :
    l.flatMap expandChar = l := by
  induction l with
  | nil => rfl
  | cons c rest ih =>
    simpa [List.flatMap_cons, goodChar_expand (h c (by simp))] using
      ih (fun d hd => h d (by simp [hd]))

theorem filter_keep_id {l : List Char} (h : ∀ c ∈ l, goodChar c = true) :
    l.filter (fun c => isWordCharJS c || isSpaceJS c) = l :=
  List.filter_eq_self.mpr (fun c hc => goodChar_keep (h c hc))

theorem collapseGo_true_eq_false {d : Char} {rest : List Char}
    (hd : isSpaceJS d = false) :
    collapseGo true (d :: rest) = collapseGo false (d :: rest) := by
  simp [collapseGo, hd]

theorem collapseGo_false_id :
    ∀ (l : List Char), (∀ c ∈ l, goodChar c = true) → List.Chain' noSpacePair l →
      collapseGo false l = l
  | [], _, _ => rfl
  | c :: rest, hg, hc => by
    by_cases hcs : isSpaceJS c = true
    · have hce : c = ' ' := (goodChar_space_iff (hg c (by simp))).mp hcs
      subst hce
      cases rest with
      | nil => rfl
      | cons d rest' =>
        have hd : d ≠ ' ' := by
          have := (List.chain'_cons.mp hc).1
          simp only [noSpacePair] at this
          tauto
        have hds : isSpaceJS d = false := by
          by_contra hx
          exact hd ((goodChar_space_iff (hg d (by simp))).mp (by simpa using hx))
        have hrec : collapseGo false (d :: rest') = d :: rest' :=
          collapseGo_false_id (d :: rest')
            (fun e he => hg e (by simp at he ⊢; tauto))
            (List.chain'_cons.mp hc).2
        simp [collapseGo, hds] at hrec
        simp [collapseGo, hds, hrec]
    · have hcs' : isSpaceJS c = false := by simpa using hcs
      have hrec := collapseGo_false_id rest
        (fun d hd => hg d (by simp [hd])) hc.tail
      simp [collapseGo, hcs', hrec]

theorem head?_mem {α : Type} {l : List α} {c : α} (h : l.head? = some c) : c ∈ l := by
  cases l with
  | nil => simp at h
  | cons x xs => simp at h; simp [h]

theorem getLast?_mem {α : Type} : ∀ {l : List α} {c : α}, l.getLast? = some c → c ∈ l
  | [], _, h => by simp at h
  | [x], c, h => by simp_all
  | x :: y :: xs, c, h => by
    rw [List.getLast?_cons_cons] at h
    exact List.mem_cons_of_mem x (getLast?_mem h)

theorem head?_dropWhile_false {p : Char → Bool} :
    ∀ {l : List Char} {c : Char}, (l.dropWhile p).head? = some c → p c = false
  | [], _, h => by simp at h
  | x :: xs, c, h => by
    rw [List.dropWhile_cons] at h
    split at h
    · exact head?_dropWhile_false h
    · simp at h
      subst h
      simp_all

theorem dropWhile_eq_self {p : Char → Bool} {l : List Char}
    (h : ∀ c, l.head? = some c → p c = false) : l.dropWhile p = l := by
  cases l with
  | nil => rfl
  | cons x xs => simp [List.dropWhile_cons, h x rfl]

theorem getLast?_dropWhile {p : Char → Bool} :
    ∀ {l : List Char}, l.dropWhile p ≠ [] → (l.dropWhile p).getLast? = l.getLast?
  | [], h => by simp at h
  | x :: xs, h => by
    rw [List.dropWhile_cons]
    rw [List.dropWhile_cons] at h
    split
    · rename_i hx
      have hxs : xs ≠ [] := by
        intro he
        subst he
        simp [hx] at h
      have := getLast?_dropWhile (by simpa [hx] using h)
      rw [this]
      cases xs with
      | nil => exact absurd rfl hxs
      | cons y ys => rw [List.getLast?_cons_cons]
    · rfl

theorem chain'_dropWhile {R : Char → Char → Prop} {p : Char → Bool} :
    ∀ {l : List Char}, List.Chain' R l → List.Chain' R (l.dropWhile p)
  | [], h => h
  | x :: xs, h => by
    rw [List.dropWhile_cons]
    split
    · exact chain'_dropWhile h.tail
    · exact h

theorem chain_nsp_reverse {l : List Char} (h : List.Chain' noSpacePair l) :
    List.Chain' noSpacePair l.reverse :=
  List.chain'_reverse.mpr (h.imp fun _ _ hab => fun ⟨hx, hy⟩ => hab ⟨hy, hx⟩)

theorem mem_trimJS {l : List Char} {c : Char} (h : c ∈ trimJS l) : c ∈ l := by
  simp only [trimJS, trimLeftJS, List.mem_reverse] at h
  have h1 : c ∈ (l.dropWhile isSpaceJS).reverse :=
    List.Sublist.mem h (List.dropWhile_sublist _)
  have h2 : c ∈ l.dropWhile isSpaceJS := List.mem_reverse.mp h1
  exact List.Sublist.mem h2 (List.dropWhile_sublist _)

theorem trimJS_head {l : List Char} {c : Char} (h : (trimJS l).head? = some c) :
    isSpaceJS c = false := by
  rw [trimJS, List.head?_reverse] at h
  have hz : ((trimLeftJS l).reverse.dropWhile isSpaceJS) ≠ [] := by
    intro he; rw [he] at h; simp at h
  rw [getLast?_dropWhile hz, List.getLast?_reverse] at h
  exact head?_dropWhile_false h

theorem trimJS_last {l : List Char} {c : Char} (h : (trimJS l).getLast? = some c) :
    isSpaceJS c = false := by
  rw [trimJS, List.getLast?_reverse] at h
  exact head?_dropWhile_false h

theorem trimJS_eq_self {l : List Char}
    (h1 : ∀ c, l.head? = some c → isSpaceJS c = false)
    (h2 : ∀ c, l.getLast? = some c → isSpaceJS c = false) : trimJS l = l := by
  rw [trimJS, trimLeftJS, dropWhile_eq_self h1,
    dropWhile_eq_self (fun c hc => h2 c (by rwa [List.head?_reverse] at hc)),
    List.reverse_reverse]

theorem chain'_trimJS {l : List Char} (h : List.Chain' noSpacePair l) :
    List.Chain' noSpacePair (trimJS l) :=
  chain_nsp_reverse (chain'_dropWhile (chain_nsp_reverse (chain'_dropWhile h)))

theorem mem_collapseGo :
    ∀ {b : Bool} {l : List Char} {c : Char}, c ∈ collapseGo b l →
      c = ' ' ∨ (c ∈ l ∧ isSpaceJS c = false)
  | _, [], _, h => by simp [collapseGo] at h
  | b, x :: xs, c, h => by
    simp only [collapseGo] at h
    by_cases hx : isSpaceJS x = true
    · rw [if_pos hx] at h
      have hrest : c ∈ collapseGo true xs → c = ' ' ∨ (c ∈ x :: xs ∧ isSpaceJS c = false) := by
        intro hm
        rcases mem_collapseGo hm with h1 | ⟨h1, h2⟩
        · exact Or.inl h1
        · exact Or.inr ⟨List.mem_cons_of_mem x h1, h2⟩
      cases b with
      | true => exact hrest (by simpa using h)
      | false =>
        simp only [Bool.false_eq_true, if_false] at h
        rcases List.mem_cons.mp h with h1 | h1
        · exact Or.inl h1
        · exact hrest h1
    · rw [if_neg hx] at h
      rcases List.mem_cons.mp h with h1 | h1
      · subst h1
        exact Or.inr ⟨List.mem_cons_self _ _, by simpa using hx⟩
      · rcases mem_collapseGo h1 with h2 | ⟨h2, h3⟩
        · exact Or.inl h2
        · exact Or.inr ⟨List.mem_cons_of_mem x h2, h3⟩

theorem collapseGo_chain :
    ∀ (b : Bool) (l : List Char),
      List.Chain' noSpacePair (collapseGo b l) ∧
      (∀ c, b = true → (collapseGo b l).head? = some c → c ≠ ' ')
  | _, [] => by simp [collapseGo]
  | b, x :: xs => by
    simp only [collapseGo]
    by_cases hx : isSpaceJS x = true
    · rw [if_pos hx]
      cases b with
      | true =>
        simp only [if_true]
        exact ⟨(collapseGo_chain true xs).1,
          fun c _ hc => (collapseGo_chain true xs).2 c rfl hc⟩
      | false =>
        simp only [Bool.false_eq_true, if_false]
        constructor
        · rw [List.chain'_cons']
          refine ⟨?_, (collapseGo_chain true xs).1⟩
          intro y hy
          have hne := (collapseGo_chain true xs).2 y rfl (by
            cases hh : (collapseGo true xs).head? with
            | none => simp [hh] at hy
            | some z => simp [hh] at hy; simp [hy, hh])
          exact fun ⟨_, hy2⟩ => hne hy2
        · intro c hb; simp at hb
    · rw [if_neg hx]
      have hxne : x ≠ ' ' := by
        intro he; subst he; exact hx isSpaceJS_space
      constructor
      · rw [List.chain'_cons']
        exact ⟨fun y _ => fun ⟨hx1, _⟩ => hxne hx1, (collapseGo_chain false xs).1⟩
      · intro c _ hc
        simp at hc
        subst hc
        exact hxne

theorem toLower_not_upper (c : Char) :
    ¬(65 ≤ (toLowerJS c).toNat ∧ (toLowerJS c).toNat ≤ 90) := by
  rw [toLowerJS]
  split
  · rename_i hcond
    simp only [Bool.and_eq_true, decide_eq_true_eq] at hcond
    rw [toNat_ofNat_valid (Or.inl (by omega))]
    omega
  · rename_i hcond
    simp only [Bool.and_eq_true, decide_eq_true_eq] at hcond
    omega

theorem expand_not_upper {c d : Char} (hc : ¬(65 ≤ c.toNat ∧ c.toNat ≤ 90))
    (hd : d ∈ expandChar c) : ¬(65 ≤ d.toNat ∧ d.toNat ≤ 90) := by
  rw [expandChar] at hd
  split at hd
  · simp only [List.mem_cons, List.not_mem_nil, or_false] at hd
    rcases hd with rfl | rfl | rfl <;> decide
  · split at hd
    · simp only [List.mem_cons, List.not_mem_nil, or_false] at hd
      rcases hd with rfl | rfl | rfl <;> decide
    · split at hd
      · simp only [List.mem_cons, List.not_mem_nil, or_false] at hd
        subst hd
        decide
      · split at hd
        · simp at hd
        · simp only [List.mem_cons, List.not_mem_nil, or_false] at hd
          subst hd
          exact hc

theorem normalizeBase_wellFormed (text : List Char) :
    wellFormedNorm (normalizeBase text) := by
  rw [normalizeBase]
  refine ⟨?_, ?_, ?_, ?_⟩
  · intro c hc
    have hc4 := mem_trimJS hc
    rcases mem_collapseGo hc4 with h1 | ⟨h1, h2⟩
    · subst h1; decide
    · have := List.mem_filter.mp h1
      obtain ⟨hmem, hkeep⟩ := this
      obtain ⟨a, _, hca⟩ := List.mem_flatMap.mp hmem
      obtain ⟨t, _, hat⟩ := List.mem_map.mp (by assumption)
      have hnu : ¬(65 ≤ c.toNat ∧ c.toNat ≤ 90) := by
        apply expand_not_upper _ hca
        rw [← hat]
        exact toLower_not_upper t
      have hword : isWordCharJS c = true := by
        simp only [Bool.or_eq_true] at hkeep
        rcases hkeep with h | h
        · exact h
        · rw [h] at h2; simp at h2
      rw [goodChar_iff]
      have := isWordCharJS_iff.mp hword
      omega
  · exact chain'_trimJS (collapseGo_chain false _).1
  · intro c hc
    intro he
    subst he
    have := trimJS_head hc
    rw [isSpaceJS_space] at this
    simp at this
  · intro c hc
    intro he
    subst he
    have := trimJS_last hc
    rw [isSpaceJS_space] at this
    simp at this

theorem normalizeBase_eq_self {l : List Char} (h : wellFormedNorm l) :
    normalizeBase l = l := by
  obtain ⟨hg, hc, hh, hl⟩ := h
  have hspace : ∀ c, c ∈ l → c ≠ ' ' → isSpaceJS c = false := by
    intro c hcm hne
    by_contra hx
    exact hne ((goodChar_space_iff (hg c hcm)).mp (by simpa using hx))
  rw [normalizeBase, map_toLower_id hg, flatMap_expand_id hg, filter_keep_id hg]
  rw [collapseSpaces, collapseGo_false_id l hg hc]
  exact trimJS_eq_self
    (fun c hch => hspace c (head?_mem hch) (hh c hch))
    (fun c hcl => hspace c (getLast?_mem hcl) (hl c hcl))

theorem normalizeBase_idem (text : List Char) :
    normalizeBase (normalizeBase text) = normalizeBase text :=
  normalizeBase_eq_self (normalizeBase_wellFormed text)

/-- C3 (counterexample): the claim "normalize(normalize(x, removeYear),
removeYear) equals normalize(x, removeYear) for every string x and every
value of the removeYear flag" fails at x = "a 1999 b" with removeYear =
true: the year is deleted but only the ends are trimmed, leaving the double
space "a  b", which a second application collapses to "a b". -/
theorem c3_normalize_removeYear_not_idempotent :
    normalizeText (normalizeText ((r"a 1999 b").data) true) true ≠
      normalizeText ((r"a 1999 b").data) true := by decide

/-- C3 (amended): the title normalizer is pure and idempotent when the
removeYear flag is false (the hianime normalizer, and the AnimeSama
normalizer's default), and it is case-insensitive:
normalize("ATTACK on Titan") = normalize("attack on titan").  With
removeYear = true idempotence can fail (see the counterexample). -/
theorem c3_normalize_idempotent_pure :
    (∀ text : List Char,
      normalizeText (normalizeText text false) false = normalizeText text false) ∧
    normalizeText ((r"ATTACK on Titan").data) =
      normalizeText ((r"attack on titan").data) :=
  ⟨fun text => by simpa [normalizeText] using normalizeBase_idem text, by decide⟩

theorem lookupCache_mem {c : WVCache} {key : List Char} {v : List (List Char)}
    (h : lookupCache c key = some v) : (key, v) ∈ c := by
  induction c with
  | nil => simp [lookupCache] at h
  | cons kv rest ih =>
    obtain ⟨k, w⟩ := kv
    rw [lookupCache] at h
    split at h
    · rename_i he
      simp at h
      subst he
      subst h
      exact List.mem_cons_self _ _
    · exact List.mem_cons_of_mem _ (ih h)

/-- C9 (counterexample): the variation cache is keyed by the lower-cased
word but caches the variation set of the originally passed word (which the
set contains as its first element).  Priming the cache with "Season" makes
a later lookup of "season" return a set containing "Season", which a run
on an empty cache does not produce: two runs on the same word in different
cache states disagree. -/
theorem c9_cache_not_transparent :
    (getWordVariations (getWordVariations [] ((r"Season").data)).2
        ((r"season").data)).1 ≠
      (getWordVariations [] ((r"season").data)).1 := by decide

/-- C9 (amended): memoization is observationally transparent on the words
the engine actually passes, namely lower-case-fixed words (all call sites
split normalized titles): on any cache state reachable through such calls,
a lookup returns exactly the pure recomputation and preserves the cache
invariant. -/
theorem c9_memo_transparent_lowercase (cache : WVCache) (word : List Char)
    (hc : wvCacheGood cache) (hw : lowerStr word = word) :
    (getWordVariations cache word).1 = computeVariations word ∧
      wvCacheGood (getWordVariations cache word).2 := by
  rw [getWordVariations, hw]
  cases hl : lookupCache cache word with
  | some v =>
    have hmem := lookupCache_mem hl
    have := hc _ hmem
    exact ⟨this.2.symm ▸ rfl, hc⟩
  | none =>
    refine ⟨rfl, ?_⟩
    intro kv hkv
    rcases List.mem_append.mp hkv with h1 | h1
    · exact hc _ h1
    · simp at h1
      subst h1
      exact ⟨hw.symm, rfl⟩

theorem c9_memo_transparent_lowercase_witness :
    (getWordVariations [] ((r"season").data)).1 =
        computeVariations ((r"season").data) ∧
      wvCacheGood (getWordVariations [] ((r"season").data)).2 :=
  c9_memo_transparent_lowercase [] ((r"season").data)
    (by intro kv hkv; simp at hkv) (by decide)

theorem fracLen_nonneg (sv tv : List Char) : 0 ≤ fracLen sv tv := by
  rw [fracLen, Rat.mkRat_eq_div]
  apply div_nonneg
  · exact_mod_cast Nat.zero_le _
  · positivity

theorem fracLen_le_one (sv tv : List Char) : fracLen sv tv ≤ 1 := by
  rw [fracLen]
  rcases Nat.eq_zero_or_pos (max sv.length tv.length) with hM | hM
  · rw [hM, Rat.mkRat_zero]; norm_num
  · rw [Rat.mkRat_eq_div, div_le_one (by positivity)]
    have : min sv.length tv.length ≤ max sv.length tv.length := min_le_max
    exact_mod_cast this

theorem pairScore_nonneg (sv tv : List Char) : 0 ≤ pairScore sv tv := by
  rw [pairScore]
  split
  · norm_num
  · split
    · exact fracLen_nonneg sv tv
    · exact le_refl 0

theorem pairScore_le_one (sv tv : List Char) : pairScore sv tv ≤ 1 := by
  rw [pairScore]
  split
  · exact le_refl 1
  · split
    · exact fracLen_le_one sv tv
    · norm_num

theorem foldr_max_nonneg (l : List ℚ) : 0 ≤ l.foldr max 0 := by
  induction l with
  | nil => exact le_refl 0
  | cons x rest ih => exact le_trans ih (le_max_right _ _)

theorem foldr_max_le_one {l : List ℚ} (h : ∀ x ∈ l, x ≤ 1) : l.foldr max 0 ≤ 1 := by
  induction l with
  | nil => norm_num
  | cons x rest ih =>
    exact max_le (h x (by simp)) (ih fun y hy => h y (by simp [hy]))

theorem pairFold_nonneg (sv : List Char) (tvs : List (List Char)) :
    0 ≤ (tvs.map (pairScore sv)).foldr max 0 :=
  foldr_max_nonneg _

theorem pairFold_le_one (sv : List Char) (tvs : List (List Char)) :
    (tvs.map (pairScore sv)).foldr max 0 ≤ 1 :=
  foldr_max_le_one (by
    intro x hx
    obtain ⟨tv, _, rfl⟩ := List.mem_map.mp hx
    exact pairScore_le_one sv tv)

theorem scanTitleVars_eq (sv : List Char) :
    ∀ (tvs : List (List Char)) (b : ℚ), 0 ≤ b → b ≤ 1 →
      scanTitleVars sv tvs b = max b ((tvs.map (pairScore sv)).foldr max 0)
  | [], b, hb0, _ => by simp [scanTitleVars, max_eq_left hb0]
  | tv :: rest, b, hb0, hb1 => by
    rw [scanTitleVars]
    by_cases h1 : sv = tv
    · rw [if_pos h1]
      have hp : pairScore sv tv = 1 := by rw [pairScore, if_pos h1]
      have : ((tv :: rest).map (pairScore sv)).foldr max 0 = 1 := by
        rw [List.map_cons, List.foldr_cons, hp]
        exact max_eq_left (pairFold_le_one sv rest)
      rw [this, max_eq_right hb1]
    · rw [if_neg h1]
      by_cases h2 : (containsSub sv tv || containsSub tv sv) = true
      · rw [if_pos h2]
        have hp : pairScore sv tv = fracLen sv tv := by
          rw [pairScore, if_neg h1, if_pos h2]
        have hple := pairScore_le_one sv tv
        rw [← hp]
        rw [scanTitleVars_eq sv rest (max b (pairScore sv tv))
          (le_trans hb0 (le_max_left _ _)) (max_le hb1 hple)]
        rw [List.map_cons, List.foldr_cons, max_assoc]
      · rw [if_neg h2]
        have hp : pairScore sv tv = 0 := by
          rw [pairScore, if_neg h1, if_neg h2]
        rw [scanTitleVars_eq sv rest b hb0 hb1]
        rw [List.map_cons, List.foldr_cons, hp,
          max_eq_right (pairFold_nonneg sv rest)]

theorem scanSearchVars_eq (tvj : List (List Char)) :
    ∀ (svs : List (List Char)) (b : ℚ), 0 ≤ b → b ≤ 1 →
      scanSearchVars tvj svs b =
        max b ((svs.map (fun sv => (tvj.map (pairScore sv)).foldr max 0)).foldr max 0)
  | [], b, hb0, _ => by simp [scanSearchVars, max_eq_left hb0]
  | sv :: rest, b, hb0, hb1 => by
    rw [scanSearchVars]
    have hbv := scanTitleVars_eq sv tvj b hb0 hb1
    have hBle := pairFold_le_one sv tvj
    have hb'0 : (0:ℚ) ≤ scanTitleVars sv tvj b := by
      rw [hbv]; exact le_trans hb0 (le_max_left _ _)
    have hb'1 : scanTitleVars sv tvj b ≤ 1 := by
      rw [hbv]; exact max_le hb1 hBle
    have hrestle : ((rest.map (fun s => (tvj.map (pairScore s)).foldr max 0)).foldr max 0) ≤ 1 :=
      foldr_max_le_one (by
        intro x hx
        obtain ⟨s, _, rfl⟩ := List.mem_map.mp hx
        exact pairFold_le_one s tvj)
    have hconsle :
        max b (((sv :: rest).map (fun s => (tvj.map (pairScore s)).foldr max 0)).foldr max 0) ≤ 1 := by
      refine max_le hb1 (foldr_max_le_one ?_)
      intro x hx
      obtain ⟨s, _, rfl⟩ := List.mem_map.mp hx
      exact pairFold_le_one s tvj
    split
    · rename_i h1
      rw [h1]
      have hge : scanTitleVars sv tvj b ≤
          max b (((sv :: rest).map (fun s => (tvj.map (pairScore s)).foldr max 0)).foldr max 0) := by
        rw [hbv, List.map_cons, List.foldr_cons, ← max_assoc]
        exact le_max_left _ _
      rw [h1] at hge
      exact (le_antisymm hconsle hge).symm
    · rw [scanSearchVars_eq tvj rest _ hb'0 hb'1, hbv,
        List.map_cons, List.foldr_cons, max_assoc]

theorem innerFold_nonneg (svs : List (List Char)) (tvj : List (List Char)) :
    0 ≤ (svs.map (fun sv => (tvj.map (pairScore sv)).foldr max 0)).foldr max 0 :=
  foldr_max_nonneg _

theorem innerFold_le_one (svs : List (List Char)) (tvj : List (List Char)) :
    (svs.map (fun sv => (tvj.map (pairScore sv)).foldr max 0)).foldr max 0 ≤ 1 :=
  foldr_max_le_one (by
    intro x hx
    obtain ⟨sv, _, rfl⟩ := List.mem_map.mp hx
    exact pairFold_le_one sv tvj)

theorem scanTitleWords_eq (svs : List (List Char)) :
    ∀ (tvss : List (List (List Char))) (b : ℚ), 0 ≤ b → b ≤ 1 →
      scanTitleWords svs tvss b =
        max b ((tvss.map (fun tvj =>
          (svs.map (fun sv => (tvj.map (pairScore sv)).foldr max 0)).foldr max 0)).foldr max 0)
  | [], b, hb0, _ => by simp [scanTitleWords, max_eq_left hb0]
  | tvj :: rest, b, hb0, hb1 => by
    rw [scanTitleWords]
    have hbv := scanSearchVars_eq tvj svs b hb0 hb1
    have hb'0 : (0:ℚ) ≤ scanSearchVars tvj svs b := by
      rw [hbv]; exact le_trans hb0 (le_max_left _ _)
    have hb'1 : scanSearchVars tvj svs b ≤ 1 := by
      rw [hbv]; exact max_le hb1 (innerFold_le_one svs tvj)
    have hconsle :
        max b (((tvj :: rest).map (fun tj =>
          (svs.map (fun sv => (tj.map (pairScore sv)).foldr max 0)).foldr max 0)).foldr max 0) ≤ 1 := by
      refine max_le hb1 (foldr_max_le_one ?_)
      intro x hx
      obtain ⟨tj, _, rfl⟩ := List.mem_map.mp hx
      exact innerFold_le_one svs tj
    split
    · rename_i h1
      rw [h1]
      have hge : scanSearchVars tvj svs b ≤
          max b (((tvj :: rest).map (fun tj =>
            (svs.map (fun sv => (tj.map (pairScore sv)).foldr max 0)).foldr max 0)).foldr max 0) := by
        rw [hbv, List.map_cons, List.foldr_cons, ← max_assoc]
        exact le_max_left _ _
      rw [h1] at hge
      exact (le_antisymm hconsle hge).symm
    · rw [scanTitleWords_eq svs rest _ hb'0 hb'1, hbv,
        List.map_cons, List.foldr_cons, max_assoc]

theorem bestWord_eq (svs : List (List Char)) (tvss : List (List (List Char))) :
    scanTitleWords svs tvss 0 =
      (tvss.map (fun tvj =>
        (svs.map (fun sv => (tvj.map (pairScore sv)).foldr max 0)).foldr max 0)).foldr max 0 := by
  rw [scanTitleWords_eq svs tvss 0 (le_refl 0) zero_le_one]
  exact max_eq_right (foldr_max_nonneg _)

/-- C2: for every pair of titles the scorer returns exactly 1 on equal
normalized titles; otherwise 0.95 when the edit distance is at most 2 and
the normalized source is longer than 5; otherwise
`0.7·wordScore + 0.3·stringSimilarity`, where `wordScore` best-matches each
source word against the candidate words through variation sets (exact
variation match 1, substring containment min/max length) and
`stringSimilarity` is the whole-string bigram coefficient on the
normalized titles. -/
theorem c2_title_score_formula (s t : List Char) :
    calculateTitleScore s t =
      if normalizeText s = normalizeText t then 1
      else if levenshteinDistance (normalizeText s) (normalizeText t) ≤ 2 ∧
          (normalizeText s).length > 5 then mkRat 95 100
      else mkRat 7 10 * wordMatchScoreSpec (normalizeText s) (normalizeText t) +
        mkRat 3 10 * stringSimilarityJS (normalizeText s) (normalizeText t) := by
  rw [calculateTitleScore, wordMatchScoreSpec]
  by_cases h1 : normalizeText s = normalizeText t
  · rw [if_pos h1, if_pos h1]
  · rw [if_neg h1, if_neg h1]
    by_cases h2 : levenshteinDistance (normalizeText s) (normalizeText t) ≤ 2 ∧
        (normalizeText s).length > 5
    · rw [if_pos h2, if_pos h2]
    · rw [if_neg h2, if_neg h2]
      dsimp only
      have hbests :
          ((splitOnChar ' ' (normalizeText s)).map computeVariations).map
              (fun svs => scanTitleWords svs
                (((splitOnChar ' ' (normalizeText t)).map computeVariations)) 0) =
            (splitOnChar ' ' (normalizeText s)).map (fun w =>
              ((splitOnChar ' ' (normalizeText t)).map (fun w' =>
                ((computeVariations w).map (fun sv =>
                  ((computeVariations w').map (pairScore sv)).foldr max 0)).foldr max 0)).foldr max 0) := by
        rw [List.map_map]
        refine List.map_congr_left ?_
        intro w _
        show scanTitleWords (computeVariations w)
          ((splitOnChar ' ' (normalizeText t)).map computeVariations) 0 = _
        rw [bestWord_eq, List.map_map]
        rfl
      rw [hbests]
      ring

theorem searchLoop_const_empty (catalog : List Char → List RawItem)
    (info : AnimeInfo) (ty : List (List Char)) (ssn : Option Nat)
    (hq : ∀ q, catalog q = []) :
    ∀ (ts : List (List Char)) (st : SearchState),
      searchLoop catalog info ty ssn ts st = st
  | [], _ => rfl
  | t :: rest, st => by
    rw [searchLoop, hq t]
    have hp : processQuery info ty ssn st t [] = st := rfl
    rw [hp]
    split
    · rfl
    · exact searchLoop_const_empty catalog info ty ssn hq rest st

/-- C7: whenever the catalog collaborator returns an empty candidate list
for every query (hence for every tried title variant and for the
alternative base-title retry), `searchAnime` returns score 0, method
`none`, and no foreign identifier. -/
theorem c7_empty_candidates_none (catalog : List Char → List RawItem)
    (title : List Char) (info : AnimeInfo) (hq : ∀ q, catalog q = []) :
    searchAnime catalog title info = BestMatch.mk 0 Option.none Method.none := by
  rw [searchAnime]
  dsimp only
  rw [searchLoop_const_empty catalog info _ _ hq]
  have hsel : selectBestMatch [] (BestMatch.mk 0 Option.none Method.none) title
      (titlesToTry info)
      (extractYears title Option.none ++
        (if truthyNat info.seasonYear = true then [natToDigits (info.seasonYear.getD 0)] else []))
      (extractSeasonNumber title) info = BestMatch.mk 0 Option.none Method.none := rfl
  rw [hsel]
  have h06 : ((BestMatch.mk 0 Option.none Method.none).score < mkRat 6 10) := by
    show (0:ℚ) < mkRat 6 10
    rw [Rat.mkRat_eq_div]
    norm_num
  rw [if_pos h06]
  have halt : ∀ b, searchAnimeAlternative catalog b info
      (extractYears title Option.none ++
        (if truthyNat info.seasonYear = true then [natToDigits (info.seasonYear.getD 0)] else []))
      (extractSeasonNumber title) = Option.none := by
    intro b
    rw [searchAnimeAlternative, hq b]
    have : ((BestMatch.mk 0 Option.none Method.alternative).score > mkRat 1 2) = False := by
      simp only [eq_iff_iff, iff_false]
      show ¬ (0:ℚ) > mkRat 1 2
      rw [Rat.mkRat_eq_div]
      norm_num
    simp only [List.foldl_nil, this, if_false]
  split
  · rw [halt]
    have : ¬ ((BestMatch.mk 0 Option.none Method.none).score > mkRat 4 10) := by
      show ¬ (0:ℚ) > mkRat 4 10
      rw [Rat.mkRat_eq_div]
      norm_num
    rw [if_neg this]
  · have : ¬ ((BestMatch.mk 0 Option.none Method.none).score > mkRat 4 10) := by
      show ¬ (0:ℚ) > mkRat 4 10
      rw [Rat.mkRat_eq_div]
      norm_num
    rw [if_neg this]

theorem c7_empty_candidates_none_witness :
    searchAnime (fun _ => []) ((r"Overlord").data)
      (AnimeInfo.mk (AnimeTitles.mk (some ((r"Overlord").data)) Option.none) []
        Option.none Option.none Option.none Option.none) =
      BestMatch.mk 0 Option.none Method.none :=
  c7_empty_candidates_none _ _ _ (fun _ => rfl)

/-- C8 (counterexample): the single-word query "Overlord" does match a
candidate titled "Overlord Wars" above the acceptance threshold: the
compound-title penalty halves the base score 35/38 to 35/76 ≈ 0.46, which
exceeds the 0.4 cutoff, so the candidate is accepted (method
`title_match`). -/
theorem c8_overlord_wars_accepted :
    searchAnime
        (fun q => if q = (r"Overlord").data then
          [RawItem.mk ((r"Overlord Wars").data) (some ((r"overlord-wars-123").data))
            Option.none [] 0 Option.none] else [])
        ((r"Overlord").data)
        (AnimeInfo.mk (AnimeTitles.mk (some ((r"Overlord").data)) Option.none) []
          Option.none Option.none Option.none Option.none) =
      BestMatch.mk (mkRat 35 76) (some ((r"overlord-wars-123").data)) Method.title_match ∧
    mkRat 35 76 > mkRat 4 10 :=
  ⟨of_decide_eq_true (by with_unfolding_all rfl), by decide⟩

/-- C8 (amended): (1) for a single-word query, a multi-word candidate
containing the query word only as a substring (no exact word match) is
discarded before scoring; (2) a surviving multi-word candidate containing
a compound-title marker word has its base score halved before the
contextual adjustments; but (3) the halved score can still exceed the
acceptance threshold — "Overlord" vs "Overlord Wars" is accepted at
35/76 ≈ 0.46 > 0.4 (see the counterexample theorem). -/
theorem c8_single_word_guards :
    (∀ (info : AnimeInfo) (ty : List (List Char)) (ssn : Option Nat)
      (searchTitle : List Char) (item : RawItem),
      (splitOnChar ' ' (normalizeText searchTitle)).length = 1 →
      (splitOnChar ' ' (normalizeText item.title)).length > 1 →
      (splitOnChar ' ' (normalizeText item.title)).any
        (fun w => w == (splitOnChar ' ' (normalizeText searchTitle)).headD []) = false →
      containsSub (normalizeText item.title)
        ((splitOnChar ' ' (normalizeText searchTitle)).headD []) = true →
      processItem info ty ssn searchTitle item = Option.none) ∧
    (∀ (info : AnimeInfo) (ty : List (List Char)) (ssn : Option Nat)
      (searchTitle : List Char) (item : RawItem) (sm : SeriesMatch),
      processItem info ty ssn searchTitle item = some sm →
      (splitOnChar ' ' (normalizeText searchTitle)).length = 1 →
      (splitOnChar ' ' (normalizeText item.title)).length > 1 →
      significantWords.any (fun w => containsSub (normalizeText item.title) w) = true →
      sm.score = contextAdjust info ty ssn item
        (calculateTitleScore searchTitle item.title * mkRat 1 2)) := by
  constructor
  · intro info ty ssn searchTitle item h1 h2 h3 h4
    rw [processItem]
    cases item.id with
    | none => rfl
    | some hid =>
      dsimp only
      rw [if_pos]
      refine ⟨h1, h2, ?_⟩
      rw [h3, h4]
      rfl
  · intro info ty ssn searchTitle item sm h h1 h2 h3
    rw [processItem] at h
    cases hid : item.id with
    | none => rw [hid] at h; exact absurd h (by simp)
    | some i =>
      rw [hid] at h
      dsimp only at h
      split at h
      · exact absurd h (by simp)
      · have hsm := (Option.some.injEq _ _).mp h
        have : sm.score = contextAdjust info ty ssn item
            (if (splitOnChar ' ' (normalizeText searchTitle)).length = 1 ∧
                (splitOnChar ' ' (normalizeText item.title)).length > 1 ∧
                significantWords.any (fun w => containsSub (normalizeText item.title) w) = true
             then calculateTitleScore searchTitle item.title * mkRat 1 2
             else calculateTitleScore searchTitle item.title) := by
          rw [← hsm]
        rw [this, if_pos ⟨h1, h2, h3⟩]

theorem c8_single_word_guards_witness :
    processItem
      (AnimeInfo.mk (AnimeTitles.mk (some ((r"Overlord").data)) Option.none) []
        Option.none Option.none Option.none Option.none)
      [] Option.none ((r"Overlord").data)
      (RawItem.mk ((r"Overlordia Chronicles").data) (some ((r"x-1").data))
        Option.none [] 0 Option.none) = Option.none :=
  c8_single_word_guards.1 _ _ _ _ _ (by decide) (by decide) (by decide) (by decide)

/-- C6 (counterexample): an ordinary "not found" (the catalog search
completes with no acceptable match) makes the exported entry point throw
"Could not find anime on Hianime" instead of returning the resolver's
`{score: 0, method: none}` result. -/
theorem c6_entry_point_throws_on_not_found :
    getEpisodesForAnime 1
      (some (AnimeInfo.mk (AnimeTitles.mk (some ((r"Overlord").data)) Option.none) []
        Option.none Option.none Option.none Option.none))
      (fun _ => []) (fun _ => 0) =
      Except.error ((r"Could not find anime on Hianime").data) := by
  with_unfolding_all rfl

/-- C6 (amended): the internal resolver `searchAnime` returns a result
with a defined method for an ordinary not-found (score 0, method `none`;
see the C7 theorem), but the exported entry point `getEpisodesForAnime`
does throw past its boundary: whenever the search result carries no
identifier it raises "Could not find anime on Hianime" rather than
returning the result. -/
theorem c6_boundary_throws (anilistId : Int) (ai : AnimeInfo)
    (catalog : List Char → List RawItem) (epc : List Char → Nat) (title : List Char)
    (hpos : 0 < anilistId)
    (ht : firstTruthy ai.title.english ai.title.romaji = some title)
    (hid : (searchAnime catalog title ai).id = Option.none) :
    getEpisodesForAnime anilistId (some ai) catalog epc =
      Except.error ((r"Could not find anime on Hianime").data) := by
  rw [getEpisodesForAnime, if_neg (by omega), ht]
  dsimp only
  rw [hid]

theorem c6_boundary_throws_witness :
    getEpisodesForAnime 2
      (some (AnimeInfo.mk (AnimeTitles.mk (some ((r"Steins Gate").data)) Option.none) []
        Option.none Option.none Option.none Option.none))
      (fun _ => []) (fun _ => 0) =
      Except.error ((r"Could not find anime on Hianime").data) :=
  c6_boundary_throws 2 _ _ _ ((r"Steins Gate").data) (by norm_num) rfl
    (by with_unfolding_all rfl)

/-- C1 (counterexample): in the override phase, with no exact-title match
and an episode+format match present (the TV candidate with 12 episodes,
score 0.7), the selector does not return it: the final highest-score check
replaces the pick because the top scorer (0.9) strictly outscores it, so a
lower-scored but more specific match does not outrank a higher scorer. -/
theorem c1_specific_rule_overridden :
    selectBestMatch
        [SeriesMatch.mk ((r"Alpha Z").data) ((r"a-id").data) (mkRat 9 10)
          false true false false 10 Option.none Option.none [] Option.none,
         SeriesMatch.mk ((r"Beta Y").data) ((r"b-id").data) (mkRat 7 10)
          false true false false 12 Option.none Option.none [] Option.none]
        (BestMatch.mk (mkRat 9 10) (some ((r"a-id").data)) Method.title_match)
        ((r"Gamma").data) [(r"Gamma").data] [] Option.none
        (AnimeInfo.mk (AnimeTitles.mk Option.none Option.none) [] (some 12)
          (some fmtTV) Option.none Option.none) =
      BestMatch.mk (mkRat 9 10) (some ((r"a-id").data)) Method.highest_score ∧
    (sortByScoreDesc
        [SeriesMatch.mk ((r"Alpha Z").data) ((r"a-id").data) (mkRat 9 10)
          false true false false 10 Option.none Option.none [] Option.none,
         SeriesMatch.mk ((r"Beta Y").data) ((r"b-id").data) (mkRat 7 10)
          false true false false 12 Option.none Option.none [] Option.none]).filter
      (exactTitlePred ((r"Gamma").data) [(r"Gamma").data]) = [] ∧
    (sortByScoreDesc
        [SeriesMatch.mk ((r"Alpha Z").data) ((r"a-id").data) (mkRat 9 10)
          false true false false 10 Option.none Option.none [] Option.none,
         SeriesMatch.mk ((r"Beta Y").data) ((r"b-id").data) (mkRat 7 10)
          false true false false 12 Option.none Option.none [] Option.none]).filter
      (exactEpisodeFormatPred (AnimeInfo.mk (AnimeTitles.mk Option.none Option.none) []
        (some 12) (some fmtTV) Option.none Option.none)) =
      [SeriesMatch.mk ((r"Beta Y").data) ((r"b-id").data) (mkRat 7 10)
        false true false false 12 Option.none Option.none [] Option.none] :=
  ⟨of_decide_eq_true (by with_unfolding_all rfl),
   of_decide_eq_true (by with_unfolding_all rfl),
   of_decide_eq_true (by with_unfolding_all rfl)⟩

/-- C1 (amended): over the score-sorted candidate pool with no exact-title
match, the override rules fire in the order episode+format, then year
(when the source has years), then season number, then TV-format priority —
but a rule's pick stands only when the pool's top scorer does not strictly
outscore it; otherwise the final check replaces it with the top scorer
(method `highest_score`).  When no rule fires, the running best `entry`
stands unless its method is `none` or the top scorer strictly outscores
it. -/
theorem c1_override_phase_rules (pool : List SeriesMatch) (entry : BestMatch)
    (title : List Char) (tlist : List (List Char)) (titleYears : List (List Char))
    (ssn : Option Nat) (info : AnimeInfo)
    (hpool : pool ≠ [])
    (top : SeriesMatch) (rest : List SeriesMatch)
    (hsort : sortByScoreDesc pool = top :: rest)
    (hnoet : (sortByScoreDesc pool).filter (exactTitlePred title tlist) = []) :
    (∀ e em, (sortByScoreDesc pool).filter (exactEpisodeFormatPred info) = e :: em →
      selectBestMatch pool entry title tlist titleYears ssn info =
        (if top.score > e.score then
          BestMatch.mk top.score (some top.id) Method.highest_score
         else BestMatch.mk e.score (some e.id) Method.exact_match)) ∧
    (∀ y ym, (sortByScoreDesc pool).filter (exactEpisodeFormatPred info) = [] →
      titleYears ≠ [] →
      (sortByScoreDesc pool).filter (yearPred titleYears) = y :: ym →
      selectBestMatch pool entry title tlist titleYears ssn info =
        (if top.score > y.score then
          BestMatch.mk top.score (some top.id) Method.highest_score
         else BestMatch.mk y.score (some y.id) Method.year_match)) ∧
    (∀ s sm, (sortByScoreDesc pool).filter (exactEpisodeFormatPred info) = [] →
      titleYears = [] → truthyNat ssn = true →
      (sortByScoreDesc pool).filter (seasonPred ssn) = s :: sm →
      selectBestMatch pool entry title tlist titleYears ssn info =
        (if top.score > s.score then
          BestMatch.mk top.score (some top.id) Method.highest_score
         else BestMatch.mk s.score (some s.id) Method.season_match)) ∧
    (∀ t tm, (sortByScoreDesc pool).filter (exactEpisodeFormatPred info) = [] →
      titleYears = [] → truthyNat ssn = false → (info.format == some fmtTV) = true →
      (sortByScoreDesc pool).filter (fun m => m.isTV) = t :: tm →
      top.score - t.score < mkRat 2 10 →
      selectBestMatch pool entry title tlist titleYears ssn info =
        (if top.score > t.score then
          BestMatch.mk top.score (some top.id) Method.highest_score
         else BestMatch.mk t.score (some t.id) Method.format_priority)) ∧
    ((sortByScoreDesc pool).filter (exactEpisodeFormatPred info) = [] →
      titleYears = [] → truthyNat ssn = false → (info.format == some fmtTV) = false →
      selectBestMatch pool entry title tlist titleYears ssn info =
        (if entry.method = Method.none ∨ top.score > entry.score then
          BestMatch.mk top.score (some top.id) Method.highest_score
         else entry)) := by
  have hne : pool.isEmpty = false := by
    cases pool with
    | nil => exact absurd rfl hpool
    | cons a as => rfl
  refine ⟨?_, ?_, ?_, ?_, ?_⟩
  · intro e em hem
    rw [selectBestMatch, hne]
    simp only [Bool.false_eq_true, if_false]
    rw [hnoet]
    dsimp only
    rw [hem, hsort]
    dsimp only
    by_cases hts : top.score > e.score
    · rw [if_pos (Or.inr hts), if_pos hts]
    · rw [if_neg ?_, if_neg hts]
      rintro (hm | hs)
      · exact absurd hm (by simp)
      · exact hts hs
  · intro y ym hem hy hym
    rw [selectBestMatch, hne]
    simp only [Bool.false_eq_true, if_false]
    rw [hnoet]
    dsimp only
    rw [hem, if_pos hy, hym, hsort]
    dsimp only
    by_cases hts : top.score > y.score
    · rw [if_pos (Or.inr hts), if_pos hts]
    · rw [if_neg ?_, if_neg hts]
      rintro (hm | hs)
      · exact absurd hm (by simp)
      · exact hts hs
  · intro s sm hem hy hssn hsm
    rw [selectBestMatch, hne]
    simp only [Bool.false_eq_true, if_false]
    rw [hnoet]
    dsimp only
    rw [hem]
    subst hy
    rw [if_neg (by simp), if_pos hssn, hsm, hsort]
    dsimp only
    by_cases hts : top.score > s.score
    · rw [if_pos (Or.inr hts), if_pos hts]
    · rw [if_neg ?_, if_neg hts]
      rintro (hm | hs)
      · exact absurd hm (by simp)
      · exact hts hs
  · intro t tm hem hy hssn htv htm hlt
    rw [selectBestMatch, hne]
    simp only [Bool.false_eq_true, if_false]
    rw [hnoet]
    dsimp only
    rw [hem]
    subst hy
    rw [if_neg (by simp), if_neg (by simp [hssn]), if_pos htv, htm, hsort]
    dsimp only
    rw [if_pos hlt]
    by_cases hts : top.score > t.score
    · rw [if_pos (Or.inr hts), if_pos hts]
    · rw [if_neg ?_, if_neg hts]
      rintro (hm | hs)
      · exact absurd hm (by simp)
      · exact hts hs
  · intro hem hy hssn htv
    rw [selectBestMatch, hne]
    simp only [Bool.false_eq_true, if_false]
    rw [hnoet]
    dsimp only
    rw [hem]
    subst hy
    rw [if_neg (by simp), if_neg (by simp [hssn]), if_neg (by simp [htv]), hsort]

theorem c1_override_phase_rules_witness :
    selectBestMatch
        [SeriesMatch.mk ((r"Beta Y").data) ((r"b-id").data) (mkRat 7 10)
          false true false false 12 Option.none Option.none [] Option.none]
        (BestMatch.mk (mkRat 7 10) (some ((r"b-id").data)) Method.title_match)
        ((r"Gamma").data) [(r"Gamma").data] [] Option.none
        (AnimeInfo.mk (AnimeTitles.mk Option.none Option.none) [] (some 12)
          (some fmtTV) Option.none Option.none) =
      BestMatch.mk (mkRat 7 10) (some ((r"b-id").data)) Method.exact_match := by
  have h := (c1_override_phase_rules
    [SeriesMatch.mk ((r"Beta Y").data) ((r"b-id").data) (mkRat 7 10)
      false true false false 12 Option.none Option.none [] Option.none]
    (BestMatch.mk (mkRat 7 10) (some ((r"b-id").data)) Method.title_match)
    ((r"Gamma").data) [(r"Gamma").data] [] Option.none
    (AnimeInfo.mk (AnimeTitles.mk Option.none Option.none) [] (some 12)
      (some fmtTV) Option.none Option.none)
    (by simp)
    (SeriesMatch.mk ((r"Beta Y").data) ((r"b-id").data) (mkRat 7 10)
      false true false false 12 Option.none Option.none [] Option.none) []
    (by with_unfolding_all rfl)
    (of_decide_eq_true (by with_unfolding_all rfl))).1
    (SeriesMatch.mk ((r"Beta Y").data) ((r"b-id").data) (mkRat 7 10)
      false true false false 12 Option.none Option.none [] Option.none) []
    (of_decide_eq_true (by with_unfolding_all rfl))
  rw [h, if_neg (by decide)]

theorem sts_subset {seasons : List AnimeSamaSeason} {t : Nat} :
    ∀ s ∈ seasonsToSearch seasons t, s ∈ seasons := by
  intro s hs
  rw [seasonsToSearch] at hs
  dsimp only at hs
  split at hs
  · split at hs
    · exact hs
    · exact (List.mem_filter.mp hs).1
  · split at hs
    · exact hs
    · exact hs

theorem sts_ne {seasons : List AnimeSamaSeason} {t : Nat} (h : seasons ≠ []) :
    seasonsToSearch seasons t ≠ [] := by
  rw [seasonsToSearch]
  dsimp only
  split
  · split
    · exact h
    · rename_i hne
      intro he
      rw [he] at hne
      exact hne rfl
  · split
    · exact h
    · exact h

theorem headD_mem {l : List AnimeSamaSeason} (h : l ≠ []) (d : AnimeSamaSeason) :
    l.headD d ∈ l := by
  cases l with
  | nil => exact absurd rfl h
  | cons x xs => simp

theorem priorityOne_mem {sts : List AnimeSamaSeason} {si : SeasonInfo} {r : List Char}
    (h : priorityOne sts si = some r) : ∃ e ∈ sts, r = e.seasonSlug := by
  rw [priorityOne] at h
  split at h
  · dsimp only at h
    split at h
    · rename_i e heq
      split at heq
      · exact ⟨e, List.mem_of_find?_eq_some heq, (Option.some.inj h).symm⟩
      · exact absurd heq (by simp)
    · split at h
      · rename_i e heq2
        exact ⟨e, List.mem_of_find?_eq_some heq2, (Option.some.inj h).symm⟩
      · simp at h
  · simp at h

theorem priorityTwo_mem {sts : List AnimeSamaSeason} {si : SeasonInfo} {r : List Char}
    (h : priorityTwo sts si = some r) : ∃ e ∈ sts, r = e.seasonSlug := by
  rw [priorityTwo] at h
  split at h
  · split at h
    · rename_i e hfind
      simp at h
      exact ⟨e, List.mem_of_find?_eq_some hfind, h.symm⟩
    · simp at h
  · simp at h

theorem priorityThree_mem {sts : List AnimeSamaSeason} {ft : List Char} {r : List Char}
    (h : priorityThree sts ft = some r) : ∃ e ∈ sts, r = e.seasonSlug := by
  rw [priorityThree] at h
  split at h
  · split at h
    · split at h
      · rename_i e hfind
        simp at h
        exact ⟨e, List.mem_of_find?_eq_some hfind, h.symm⟩
      · simp at h
    · simp at h
  · simp at h

theorem closestFold_mem (t : Nat) :
    ∀ (sts : List AnimeSamaSeason) (acc : Option AnimeSamaSeason × Nat)
      (e : AnimeSamaSeason),
      (sts.foldl (fun acc s =>
        let diff := ((s.episodeCount : Int) - (t : Int)).natAbs
        if diff < acc.2 then (some s, diff) else acc) acc).1 = some e →
      acc.1 = some e ∨ e ∈ sts
  | [], _, _, h => Or.inl h
  | s :: rest, acc, e, h => by
    rw [List.foldl_cons] at h
    rcases closestFold_mem t rest _ e h with h1 | h1
    · dsimp only at h1
      split at h1
      · simp at h1
        subst h1
        exact Or.inr (by simp)
      · exact Or.inl h1
    · exact Or.inr (by simp [h1])

theorem priorityFour_mem {sts : List AnimeSamaSeason} {t : Nat} {r : List Char}
    (h : priorityFour sts t = some r) : ∃ e ∈ sts, r = e.seasonSlug := by
  rw [priorityFour] at h
  split at h
  · split at h
    · rename_i e hfind
      simp at h
      exact ⟨e, List.mem_of_find?_eq_some hfind, h.symm⟩
    · dsimp only at h
      split at h
      · rename_i e hclosest
        simp at h
        rcases closestFold_mem t sts _ e hclosest with h1 | h1
        · simp at h1
        · exact ⟨e, h1, h.symm⟩
      · simp at h
  · simp at h

/-- C10: the season resolver returns `null` only on an empty season list;
for every non-empty list it returns the `seasonSlug` of one of the listed
candidates (the final fallback — the head of the filtered list, or of the
unfiltered list when filtering empties it — guarantees a selection). -/
theorem c10_nonempty_selects_member (seasons : List AnimeSamaSeason)
    (targetEpisodes : Nat) (seasonInfo : SeasonInfo) (fullTitle : List Char) :
    findBestSeason [] targetEpisodes seasonInfo fullTitle = Option.none ∧
    (seasons ≠ [] → ∃ e ∈ seasons,
      findBestSeason seasons targetEpisodes seasonInfo fullTitle = some e.seasonSlug) := by
  constructor
  · rfl
  · intro h
    have hne : seasons.isEmpty = false := by
      cases seasons with
      | nil => exact absurd rfl h
      | cons x xs => rfl
    rw [findBestSeason, if_neg (by simp [hne])]
    dsimp only
    cases hp1 : priorityOne (seasonsToSearch seasons targetEpisodes) seasonInfo with
    | some r =>
      obtain ⟨e, he, rfl⟩ := priorityOne_mem hp1
      exact ⟨e, sts_subset e he, rfl⟩
    | none =>
      cases hp2 : priorityTwo (seasonsToSearch seasons targetEpisodes) seasonInfo with
      | some r =>
        obtain ⟨e, he, rfl⟩ := priorityTwo_mem hp2
        exact ⟨e, sts_subset e he, rfl⟩
      | none =>
        cases hp3 : priorityThree (seasonsToSearch seasons targetEpisodes) fullTitle with
        | some r =>
          obtain ⟨e, he, rfl⟩ := priorityThree_mem hp3
          exact ⟨e, sts_subset e he, rfl⟩
        | none =>
          cases hp4 : priorityFour (seasonsToSearch seasons targetEpisodes) targetEpisodes with
          | some r =>
            obtain ⟨e, he, rfl⟩ := priorityFour_mem hp4
            exact ⟨e, sts_subset e he, rfl⟩
          | none =>
            refine ⟨(seasonsToSearch seasons targetEpisodes).headD
              (AnimeSamaSeason.mk [] [] [] 0), ?_, rfl⟩
            exact sts_subset _ (headD_mem (sts_ne h) _)

theorem c10_nonempty_selects_member_witness :
    ([(AnimeSamaSeason.mk ((r"S1").data) ((r"saison1").data) ((r"VOSTFR").data) 12)] ≠
      ([] : List AnimeSamaSeason)) ∧
    (∃ e ∈ [AnimeSamaSeason.mk ((r"S1").data) ((r"saison1").data) ((r"VOSTFR").data) 12],
      findBestSeason [AnimeSamaSeason.mk ((r"S1").data) ((r"saison1").data) ((r"VOSTFR").data) 12]
        12 (SeasonInfo.mk Option.none Option.none) ((r"Foo").data) = some e.seasonSlug) :=
  ⟨by decide,
   (c10_nonempty_selects_member
     [AnimeSamaSeason.mk ((r"S1").data) ((r"saison1").data) ((r"VOSTFR").data) 12]
     12 (SeasonInfo.mk Option.none Option.none) ((r"Foo").data)).2 (by decide)⟩

/-- C4 (counterexample): the candidate list contains an entry whose slug
encodes exactly the extracted (season 2, part 2), yet the resolver
returns the episode-count-based match "saison1": the film/OAV/kai filter
runs before every priority and drops the exact entry ("saison2-2-film")
because the source has more than five episodes. -/
theorem c4_filtered_exact_match_loses :
    findBestSeason
        [AnimeSamaSeason.mk ((r"S2P2").data) ((r"saison2-2-film").data) ((r"VOSTFR").data) 12,
         AnimeSamaSeason.mk ((r"S1").data) ((r"saison1").data) ((r"VOSTFR").data) 12]
        12 (extractSeasonInfo ((r"Foo Saison 2 Partie 2").data))
        ((r"Foo Saison 2 Partie 2").data) = some ((r"saison1").data) ∧
    extractSeasonInfo ((r"Foo Saison 2 Partie 2").data) = SeasonInfo.mk (some 2) (some 2) ∧
    scanFirst matchSaisonAt ((r"saison2-2-film").data) = some (2, some 2) := by
  decide

/-- C4 (amended): whenever the filtered candidate list (`seasonsToSearch`:
the film/OAV/kai filter applied when the source has more than five
episodes, undone if it empties the list) contains an entry whose slug
encodes exactly the extracted season and part numbers, the resolver
returns the first such entry, never an episode-count match or the
first-candidate fallback.  An exact entry removed by that filter can lose
to episode-count matching (see the counterexample). -/
theorem c4_exact_season_part_selected (seasons : List AnimeSamaSeason)
    (targetEpisodes : Nat) (fullTitle : List Char) (sinfo : SeasonInfo)
    (sn pn : Nat) (hs : sinfo.season = some sn) (hp : sinfo.part = some pn)
    (e : AnimeSamaSeason)
    (he : (seasonsToSearch seasons targetEpisodes).find? (fun s =>
      match scanFirst matchSaisonAt s.seasonSlug with
      | some (ss, sp) => ss == sn && sp == some pn
      | Option.none => false) = some e) :
    findBestSeason seasons targetEpisodes sinfo fullTitle = some e.seasonSlug ∧
      e ∈ seasonsToSearch seasons targetEpisodes := by
  have hmem := List.mem_of_find?_eq_some he
  have hseasons_ne : seasons ≠ [] := by
    intro hnil
    subst hnil
    have hsts : seasonsToSearch [] targetEpisodes = [] := by
      rw [seasonsToSearch]
      dsimp only
      split <;> rfl
    rw [hsts] at he
    simp at he
  refine ⟨?_, hmem⟩
  rw [findBestSeason, if_neg (by simp [hseasons_ne])]
  dsimp only
  have hp1 : priorityOne (seasonsToSearch seasons targetEpisodes) sinfo =
      some e.seasonSlug := by
    rw [priorityOne, hs]
    dsimp only
    rw [hp]
    dsimp only
    rw [he]
  rw [hp1]

theorem c4_exact_season_part_selected_witness :
    findBestSeason
        [AnimeSamaSeason.mk ((r"S2P2").data) ((r"saison2-2").data) ((r"VOSTFR").data) 99,
         AnimeSamaSeason.mk ((r"S1").data) ((r"saison1").data) ((r"VOSTFR").data) 12]
        12 (SeasonInfo.mk (some 2) (some 2)) ((r"Foo Saison 2 Partie 2").data) =
      some ((r"saison2-2").data) ∧
    AnimeSamaSeason.mk ((r"S2P2").data) ((r"saison2-2").data) ((r"VOSTFR").data) 99 ∈
      seasonsToSearch
        [AnimeSamaSeason.mk ((r"S2P2").data) ((r"saison2-2").data) ((r"VOSTFR").data) 99,
         AnimeSamaSeason.mk ((r"S1").data) ((r"saison1").data) ((r"VOSTFR").data) 12] 12 :=
  c4_exact_season_part_selected
    [AnimeSamaSeason.mk ((r"S2P2").data) ((r"saison2-2").data) ((r"VOSTFR").data) 99,
     AnimeSamaSeason.mk ((r"S1").data) ((r"saison1").data) ((r"VOSTFR").data) 12]
    12 ((r"Foo Saison 2 Partie 2").data) (SeasonInfo.mk (some 2) (some 2))
    2 2 rfl rfl
    (AnimeSamaSeason.mk ((r"S2P2").data) ((r"saison2-2").data) ((r"VOSTFR").data) 99)
    (by decide)

theorem episodeBonusSplit_true {md : Int} {episodes : Option Nat} {count : Nat}
    (h : (episodeBonusSplit md episodes count).2 = true) :
    3 ≤ md.natAbs ∧ md.natAbs ≤ 6 ∧
    ∃ e, episodes = some e ∧ e ≠ 0 ∧ count ≠ 0 ∧
      mkRat 3 10 ≤ mkRat e count ∧ mkRat e count ≤ mkRat 7 10 := by
  rw [episodeBonusSplit] at h
  split at h
  · rename_i htr
    rw [Bool.and_eq_true] at htr
    split at h
    · rename_i hmd
      split at h
      · rename_i hrat
        cases episodes with
        | none => simp [truthyNat] at htr
        | some e =>
          refine ⟨hmd.1, hmd.2, e, rfl, ?_, ?_, hrat.1, hrat.2⟩
          · intro he0
            rw [he0] at htr
            simp [truthyNat] at htr
          · intro hc0
            rw [hc0] at htr
            simp at htr
      · simp at h
    · simp at h
  · simp at h

theorem seasonStepScored_cases (st : Option TMDBSeason × Int × Bool)
    (season : TMDBSeason) (md : Int) (eps : Option Nat) (nd : List Char) :
    seasonStepScored st season md eps nd = st ∨
    ∃ sc b, seasonStepScored st season md eps nd = (some season, sc, b) ∧
      (b = true → 3 ≤ md.natAbs ∧ md.natAbs ≤ 6 ∧
        ∃ e, eps = some e ∧ e ≠ 0 ∧ season.episode_count ≠ 0 ∧
          mkRat 3 10 ≤ mkRat e season.episode_count ∧
          mkRat e season.episode_count ≤ mkRat 7 10) := by
  rw [seasonStepScored]
  split
  · exact Or.inl rfl
  · split
    · exact Or.inr ⟨_, _, rfl, fun hb => episodeBonusSplit_true hb⟩
    · exact Or.inl rfl

theorem seasonStep_cases (y m : Nat) (eps : Option Nat) (nd : List Char)
    (st : Option TMDBSeason × Int × Bool) (season : TMDBSeason) :
    seasonStep y m eps nd st season = st ∨
    ∃ sc b, seasonStep y m eps nd st season = (some season, sc, b) ∧
      (b = true → splitCourEvidence y m eps season) := by
  rw [seasonStep]
  split
  · exact Or.inl rfl
  · split
    · exact Or.inl rfl
    · rename_i sy sm sd heq
      rcases seasonStepScored_cases st season
          (monthsBetween ((y : Int), (m : Int)) (sy, sm)) eps nd with h1 | ⟨sc, b, h1, h2⟩
      · exact Or.inl h1
      · refine Or.inr ⟨sc, b, h1, fun hb => ?_⟩
        obtain ⟨h3, h6, e, he, he0, hc0, hlo, hhi⟩ := h2 hb
        exact ⟨sy, sm, sd, heq, h3, h6, e, he, he0, hc0, hlo, hhi⟩

theorem seasonFold_split (y m : Nat) (eps : Option Nat) (nd : List Char) :
    ∀ (xs : List TMDBSeason) (st : Option TMDBSeason × Int × Bool),
      (xs.foldl (seasonStep y m eps nd) st).2.2 = true →
      xs.foldl (seasonStep y m eps nd) st = st ∨
      ∃ s ∈ xs, (xs.foldl (seasonStep y m eps nd) st).1 = some s ∧
        splitCourEvidence y m eps s
  | [], _, _ => Or.inl rfl
  | x :: xs, st, h => by
    rw [List.foldl_cons] at h ⊢
    rcases seasonFold_split y m eps nd xs (seasonStep y m eps nd st x) h with h1 | h1
    · rcases seasonStep_cases y m eps nd st x with h2 | ⟨sc, b, h2, h3⟩
      · rw [h2] at h1
        exact Or.inl (by rw [h2]; exact h1)
      · right
        refine ⟨x, List.mem_cons_self x xs, ?_, ?_⟩
        · rw [h1, h2]
        · apply h3
          rw [h1, h2] at h
          exact h
    · obtain ⟨sn, hmem, heq, hev⟩ := h1
      exact Or.inr ⟨sn, List.mem_cons_of_mem x hmem, heq, hev⟩

theorem yearBranch_no_flag {seasons : List TMDBSeason} {nd : List Char}
    {ay eps : Option Nat} {r : SeasonDetection}
    (h : yearBranch seasons nd ay eps = some r) :
    r.splitCourPart = Option.none := by
  rw [yearBranch] at h
  split at h
  · split at h
    · split at h
      · rw [Option.some.injEq] at h
        subst h
        rfl
      · simp at h
    · simp at h
  · simp at h

theorem lastResortYear_no_flag {seasons : List TMDBSeason}
    {ay eps : Option Nat} {r : SeasonDetection}
    (h : lastResortYear seasons ay eps = some r) :
    r.splitCourPart = Option.none := by
  rw [lastResortYear] at h
  split at h
  · split at h
    · rw [Option.some.injEq] at h
      subst h
      rfl
    · simp at h
  · simp at h

theorem dateBranch_flag {seasons : List TMDBSeason} {nd : List Char}
    {sd0 : Option FuzzyDate} {eps : Option Nat} {r : SeasonDetection}
    (h : dateBranch seasons nd sd0 eps = some r)
    (hs : r.splitCourPart = some 2) :
    ∃ sd, sd0 = some sd ∧
      truthyNat sd.year = true ∧ truthyNat sd.month = true ∧
      ∃ s ∈ seasons, r.seasonNumber = s.season_number ∧
        r.seasonName = s.name ∧
        splitCourEvidence (sd.year.getD 0) (sd.month.getD 0) eps s := by
  rw [dateBranch.eq_def] at h
  split at h
  · rename_i sd
    split at h
    · rename_i htr
      rw [Bool.and_eq_true] at htr
      split at h
      · rename_i best bestScore isSplit heq
        split at h
        · rename_i hscore
          rw [Option.some.injEq] at h
          subst h
          cases isSplit with
          | false => simp at hs
          | true =>
            have hflag : (seasons.foldl
                (seasonStep (sd.year.getD 0) (sd.month.getD 0) eps nd)
                (Option.none, 0, false)).2.2 = true := by
              rw [heq]
            rcases seasonFold_split (sd.year.getD 0) (sd.month.getD 0) eps nd
                seasons (Option.none, 0, false) hflag with h1 | h1
            · rw [h1] at heq
              simp at heq
            · obtain ⟨sn, hmem, heq1, hev⟩ := h1
              rw [heq] at heq1
              rw [Option.some.injEq] at heq1
              subst heq1
              exact ⟨sd, rfl, htr.1, htr.2, best, hmem, rfl, rfl, hev⟩
        · simp at h
      · simp at h
    · simp at h
  · simp at h

/-- C5: whenever `detectTMDBSeason` returns a match carrying the
split-cour part-2 flag, the matched season is one of the input seasons,
its air date parses, the absolute month gap from the source start date
lies in [3, 6], both episode counts are truthy, and the episode ratio
lies in [0.3, 0.7]; the year fallback and last resort never set the
flag, so no input outside these bounds gets it. -/
theorem c5_splitcour_flag_bounds (seasons : List TMDBSeason)
    (animeInfo : AniListMedia) (animeYear : Option Nat) (res : SeasonDetection)
    (h : detectTMDBSeason seasons animeInfo animeYear = some res)
    (hs : res.splitCourPart = some 2) :
    ∃ sd, animeInfo.startDate = some sd ∧
      truthyNat sd.year = true ∧ truthyNat sd.month = true ∧
      ∃ s ∈ seasons, res.seasonNumber = s.season_number ∧
        res.seasonName = s.name ∧
        splitCourEvidence (sd.year.getD 0) (sd.month.getD 0)
          animeInfo.episodes s := by
  rw [detectTMDBSeason] at h
  split at h
  · simp at h
  · split at h
    · rename_i r hdate
      rw [Option.some.injEq] at h
      subst h
      exact dateBranch_flag hdate hs
    · rename_i hdate
      split at h
      · rename_i r hyear
        rw [Option.some.injEq] at h
        subst h
        rw [yearBranch_no_flag hyear] at hs
        simp at hs
      · rw [lastResortYear_no_flag h] at hs
        simp at hs

theorem c5_splitcour_flag_bounds_witness :
    ∃ sd, (AniListMedia.mk Option.none (some 6)
        (some (FuzzyDate.mk (some 2020) (some 4)))).startDate = some sd ∧
      truthyNat sd.year = true ∧ truthyNat sd.month = true ∧
      ∃ s ∈ [TMDBSeason.mk ((r"S1").data) Option.none 1 12
          (some ((r"2020-01-10").data))],
        (SeasonDetection.mk 1 ((r"S1").data) (some 2)).seasonNumber =
          s.season_number ∧
        (SeasonDetection.mk 1 ((r"S1").data) (some 2)).seasonName = s.name ∧
        splitCourEvidence (sd.year.getD 0) (sd.month.getD 0)
          (AniListMedia.mk Option.none (some 6)
            (some (FuzzyDate.mk (some 2020) (some 4)))).episodes s :=
  c5_splitcour_flag_bounds
    [TMDBSeason.mk ((r"S1").data) Option.none 1 12 (some ((r"2020-01-10").data))]
    (AniListMedia.mk Option.none (some 6) (some (FuzzyDate.mk (some 2020) (some 4))))
    (some 2020)
    (SeasonDetection.mk 1 ((r"S1").data) (some 2))
    (by decide) (by decide)

end ZeroMapper

